import Mathlib

/-!
Verification of the client-side session manager of the health-card
application (the `AuthService` of `src/frontend/src/services/authService.js`:
credential store, request dispatcher and single-flight refresh coordinator).

The JavaScript source is embedded shallowly: the mutable service object
becomes the structure `Svc`, `localStorage` becomes `LocalStorage`,
JavaScript truthiness of strings and of parsed JSON values is modelled
explicitly (`jsTruthyStr`, `jsTruthyUser`), and the platform functions
`JSON.stringify` / `JSON.parse` are modelled by an executable serializer
and parser over the persisted user-profile shape (`stringifyUser`,
`parseUser`, with a generic JSON grammar recognizer `jsonValid` for
entries that are valid JSON but not a profile).  The asynchronous
dispatcher (`authenticatedFetch`) and the refresh coordinator
(`_enqueueRefresh` / `refreshAccessToken`) are embedded as a small-step
event system over `GState`: each event corresponds to one synchronous
segment of the JavaScript event loop (from one `await` resumption to the
next suspension), which is the interleaving granularity of the source.
-/

/-- JavaScript truthiness of a `string | null | undefined` value:
`null`, `undefined` and the empty string are falsy. -/
def jsTruthyStr : Option String → Bool
  | none => false
  | some s => s ≠ ""

/-- JavaScript `a || b` on `string | null | undefined` values. -/
def jsOrStr (a b : Option String) : Option String :=
  if jsTruthyStr a then a else b

/-- JavaScript template-literal rendering of a `string | undefined` value:
interpolating `undefined` produces the text `undefined`. -/
def jsTemplateStr : Option String → String
  | some s => s
  | none => "undefined"

/-- The `Bearer ...` authorization header value built by the source. -/
def bearerOf (a : Option String) : String :=
  "Bearer " ++ jsTemplateStr a

/-- The user profile persisted by the session layer (spec section 3:
opaque record with id, name, email, role). -/
structure UserProfile where
  id : Nat
  name : String
  email : String
  role : String
deriving DecidableEq, Repr

/-- Decimal digit character. -/
def digitChar (n : Nat) : Char :=
  match n with
  | 0 => '0' | 1 => '1' | 2 => '2' | 3 => '3' | 4 => '4'
  | 5 => '5' | 6 => '6' | 7 => '7' | 8 => '8' | _ => '9'

/-- Fueled helper for the decimal representation (the fuel makes the
recursion structural, so terms evaluate in the kernel). -/
def natDigitsF : Nat → Nat → List Char
  | 0, _ => []
  | fuel + 1, n =>
    if n < 10 then [digitChar n]
    else natDigitsF fuel (n / 10) ++ [digitChar (n % 10)]

/-- Decimal representation of a natural number, as `JSON.stringify` prints
an integer. -/
def natDigits (n : Nat) : List Char := natDigitsF (n + 1) n

/-- Lower-case hexadecimal digit character. -/
def hexDigitChar (n : Nat) : Char :=
  match n with
  | 0 => '0' | 1 => '1' | 2 => '2' | 3 => '3' | 4 => '4'
  | 5 => '5' | 6 => '6' | 7 => '7' | 8 => '8' | 9 => '9'
  | 10 => 'a' | 11 => 'b' | 12 => 'c' | 13 => 'd' | 14 => 'e' | _ => 'f'

/-- JSON string-character escaping as performed by `JSON.stringify`:
quote and backslash are escaped, control characters use the short escapes
or a `\u00xx` escape, everything else is emitted literally. -/
def escapeChar (c : Char) : List Char :=
  if c = '"' then ['\\', '"']
  else if c = '\\' then ['\\', '\\']
  else if c.toNat = 8 then ['\\', 'b']
  else if c.toNat = 9 then ['\\', 't']
  else if c.toNat = 10 then ['\\', 'n']
  else if c.toNat = 12 then ['\\', 'f']
  else if c.toNat = 13 then ['\\', 'r']
  else if c.toNat < 32 then
    ['\\', 'u', '0', '0', hexDigitChar (c.toNat / 16), hexDigitChar (c.toNat % 16)]
  else [c]

/-- Escape every character of a string body. -/
def escapeList : List Char → List Char
  | [] => []
  | c :: cs => escapeChar c ++ escapeList cs

/-- A JSON string literal: quoted, escaped body. -/
def jsonQuote (s : String) : List Char :=
  '"' :: (escapeList s.data ++ ['"'])

/-- Serialized form of the persisted user profile, exactly as
`JSON.stringify` prints an object with these four fields. -/
def stringifyUserChars (u : UserProfile) : List Char :=
  Char.ofNat 123 :: ("\"id\":".data ++ natDigits u.id
    ++ ",\"name\":".data ++ jsonQuote u.name
    ++ ",\"email\":".data ++ jsonQuote u.email
    ++ ",\"role\":".data ++ jsonQuote u.role
    ++ [Char.ofNat 125])

/-- The `JSON.stringify` model for the persisted user profile. -/
def stringifyUser (u : UserProfile) : String :=
  String.mk (stringifyUserChars u)

/-- Decimal digit test. -/
def isDigitCh (c : Char) : Bool :=
  48 ≤ c.toNat && c.toNat ≤ 57

/-- Accumulate a run of decimal digits. -/
def parseDigitsAux (acc : Nat) : List Char → Nat × List Char
  | [] => (acc, [])
  | c :: cs =>
    if isDigitCh c then parseDigitsAux (acc * 10 + (c.toNat - 48)) cs
    else (acc, c :: cs)

/-- Parse a JSON natural number (no leading zeros, per the JSON grammar). -/
def parseJsonNat : List Char → Option (Nat × List Char)
  | [] => none
  | c :: cs =>
    if c = '0' then some (0, cs)
    else if isDigitCh c then some (parseDigitsAux (c.toNat - 48) cs)
    else none

/-- Unescape a single-character JSON escape. -/
def unescChar (c : Char) : Option Char :=
  if c = '"' then some '"'
  else if c = '\\' then some '\\'
  else if c = '/' then some '/'
  else if c = 'b' then some (Char.ofNat 8)
  else if c = 't' then some (Char.ofNat 9)
  else if c = 'n' then some (Char.ofNat 10)
  else if c = 'f' then some (Char.ofNat 12)
  else if c = 'r' then some (Char.ofNat 13)
  else none

/-- Hexadecimal digit value. -/
def hexVal (c : Char) : Option Nat :=
  if isDigitCh c then some (c.toNat - 48)
  else if 97 ≤ c.toNat ∧ c.toNat ≤ 102 then some (c.toNat - 87)
  else if 65 ≤ c.toNat ∧ c.toNat ≤ 70 then some (c.toNat - 55)
  else none

/-- Parse the body of a JSON string literal (after the opening quote),
returning the decoded characters and the input past the closing quote. -/
def parseStrBody : List Char → Option (List Char × List Char)
  | [] => none
  | c :: cs =>
    if c = '"' then some ([], cs)
    else if c = '\\' then
      match cs with
      | [] => none
      | e :: cs2 =>
        if e = 'u' then
          match cs2 with
          | h1 :: h2 :: h3 :: h4 :: cs3 =>
            match hexVal h1, hexVal h2, hexVal h3, hexVal h4 with
            | some a, some b, some c2, some d =>
              match parseStrBody cs3 with
              | some (l, rest) =>
                some (Char.ofNat (((a * 16 + b) * 16 + c2) * 16 + d) :: l, rest)
              | none => none
            | _, _, _, _ => none
          | _ => none
        else
          match unescChar e with
          | some d =>
            match parseStrBody cs2 with
            | some (l, rest) => some (d :: l, rest)
            | none => none
          | none => none
    else if c.toNat < 32 then none
    else
      match parseStrBody cs with
      | some (l, rest) => some (c :: l, rest)
      | none => none

/-- Parse a quoted JSON string literal. -/
def parseQuoted : List Char → Option (String × List Char)
  | [] => none
  | c :: cs =>
    if c = '"' then
      match parseStrBody cs with
      | some (chars, rest) => some (String.mk chars, rest)
      | none => none
    else none

/-- Match a literal prefix. -/
def stripLit : List Char → List Char → Option (List Char)
  | [], l => some l
  | _ :: _, [] => none
  | p :: ps, c :: cs => if p = c then stripLit ps cs else none

/-- Parse the exact serialized profile shape written by `setUser`. -/
def parseUserChars (l : List Char) : Option UserProfile :=
  match stripLit (Char.ofNat 123 :: "\"id\":".data) l with
  | none => none
  | some l1 =>
    match parseJsonNat l1 with
    | none => none
    | some (idv, l2) =>
      match stripLit ",\"name\":".data l2 with
      | none => none
      | some l3 =>
        match parseQuoted l3 with
        | none => none
        | some (namev, l4) =>
          match stripLit ",\"email\":".data l4 with
          | none => none
          | some l5 =>
            match parseQuoted l5 with
            | none => none
            | some (emailv, l6) =>
              match stripLit ",\"role\":".data l6 with
              | none => none
              | some l7 =>
                match parseQuoted l7 with
                | none => none
                | some (rolev, l8) =>
                  match stripLit [Char.ofNat 125] l8 with
                  | some [] => some ⟨idv, namev, emailv, rolev⟩
                  | _ => none

/-- The `JSON.parse` model restricted to the persisted profile shape. -/
def parseUser (s : String) : Option UserProfile :=
  parseUserChars s.data

/-- JSON whitespace. -/
def isWsCh (c : Char) : Bool :=
  c = ' ' || c.toNat = 9 || c.toNat = 10 || c.toNat = 13

/-- Skip JSON whitespace. -/
def skipWs : List Char → List Char
  | [] => []
  | c :: cs => if isWsCh c then skipWs cs else c :: cs

/-- Skip a greedy run of decimal digits. -/
def skipDigits : List Char → List Char
  | [] => []
  | c :: cs => if isDigitCh c then skipDigits cs else c :: cs

/-- Skip at least one decimal digit. -/
def skipDigits1 : List Char → Option (List Char)
  | [] => none
  | c :: cs => if isDigitCh c then some (skipDigits cs) else none

/-- Recognize the optional exponent part of a JSON number. -/
def skipJsonExp (l : List Char) : Option (List Char) :=
  match l with
  | [] => some []
  | c :: cs =>
    if c = 'e' ∨ c = 'E' then
      match cs with
      | [] => none
      | d :: ds =>
        if d = '+' ∨ d = '-' then skipDigits1 ds
        else skipDigits1 (d :: ds)
    else some (c :: cs)

/-- Recognize the optional fraction part of a JSON number, then the
exponent part. -/
def skipJsonFrac (l : List Char) : Option (List Char) :=
  match l with
  | c :: cs =>
    if c = '.' then
      match skipDigits1 cs with
      | some l2 => skipJsonExp l2
      | none => none
    else skipJsonExp (c :: cs)
  | [] => some []

/-- Recognize a JSON number (grammar: `-? (0 | [1-9][0-9]*) frac? exp?`). -/
def skipJsonNumber (l : List Char) : Option (List Char) :=
  let l1 := match l with
    | c :: cs => if c = '-' then cs else c :: cs
    | [] => []
  match l1 with
  | [] => none
  | c :: cs =>
    if c = '0' then skipJsonFrac cs
    else if isDigitCh c then skipJsonFrac (skipDigits cs)
    else none

mutual

/-- Fueled recognizer for one JSON value (leading whitespace allowed),
modelling the grammar accepted by `JSON.parse`. -/
def skipJsonValue : Nat → List Char → Option (List Char)
  | 0, _ => none
  | fuel + 1, l =>
    match skipWs l with
    | [] => none
    | c :: cs =>
      if c = 'n' then stripLit "ull".data cs
      else if c = 't' then stripLit "rue".data cs
      else if c = 'f' then stripLit "alse".data cs
      else if c = '"' then
        match parseStrBody cs with
        | some (_, rest) => some rest
        | none => none
      else if c = '-' ∨ isDigitCh c then skipJsonNumber (c :: cs)
      else if c.toNat = 123 then
        match skipWs cs with
        | d :: ds =>
          if d.toNat = 125 then some ds
          else skipJsonMembers fuel (d :: ds)
        | [] => none
      else if c.toNat = 91 then
        match skipWs cs with
        | d :: ds =>
          if d.toNat = 93 then some ds
          else skipJsonElems fuel (d :: ds)
        | [] => none
      else none

/-- Fueled recognizer for the members of a JSON object, starting at the
first member, up to and including the closing brace. -/
def skipJsonMembers : Nat → List Char → Option (List Char)
  | 0, _ => none
  | fuel + 1, l =>
    match skipWs l with
    | c :: cs =>
      if c = '"' then
        match parseStrBody cs with
        | some (_, rest) =>
          match skipWs rest with
          | d :: ds =>
            if d = ':' then
              match skipJsonValue fuel ds with
              | some rest2 =>
                match skipWs rest2 with
                | e :: es =>
                  if e = ',' then skipJsonMembers fuel es
                  else if e.toNat = 125 then some es
                  else none
                | [] => none
              | none => none
            else none
          | [] => none
        | none => none
      else none
    | [] => none

/-- Fueled recognizer for the elements of a JSON array, starting at the
first element, up to and including the closing bracket. -/
def skipJsonElems : Nat → List Char → Option (List Char)
  | 0, _ => none
  | fuel + 1, l =>
    match skipJsonValue fuel l with
    | some rest =>
      match skipWs rest with
      | e :: es =>
        if e = ',' then skipJsonElems fuel es
        else if e.toNat = 93 then some es
        else none
      | [] => none
    | none => none

end

/-- Whether `JSON.parse` succeeds on the string (grammar recognition;
fuel is the input length plus one, which bounds the nesting depth). -/
def jsonValid (s : String) : Bool :=
  match skipJsonValue (s.data.length + 1) s.data with
  | some rest => (skipWs rest).isEmpty
  | none => false

/-- Whether a digit other than zero occurs in the mantissa of a JSON
number (stops at the exponent marker). -/
def mantissaNonzero : List Char → Bool
  | [] => false
  | c :: cs =>
    if c = 'e' ∨ c = 'E' then false
    else if isDigitCh c && c ≠ '0' then true
    else mantissaNonzero cs

/-- JavaScript truthiness of the value produced by `JSON.parse` on a
valid JSON string: `null`, `false`, numeric zero and the empty string
are falsy, everything else is truthy. -/
def jsonTruthy (s : String) : Bool :=
  match skipWs s.data with
  | [] => false
  | c :: cs =>
    if c = 'n' ∨ c = 'f' then false
    else if c = '"' then
      match cs with
      | d :: _ => d ≠ '"'
      | [] => false
    else if c = '-' ∨ isDigitCh c then mantissaNonzero (c :: cs)
    else true

/-- The in-memory `this.user` value: either the parsed profile object or
some other successfully parsed JSON value (of which the session layer
only ever observes truthiness). -/
inductive UserVal
  | profile (u : UserProfile)
  | junk (truthy : Bool)
deriving DecidableEq, Repr

/-- JavaScript truthiness of `this.user`. -/
def jsTruthyUser : Option UserVal → Bool
  | none => false
  | some (UserVal.profile _) => true
  | some (UserVal.junk t) => t

/-- The `JSON.parse` model for the persisted user entry: a profile-shaped
string parses to the profile, any other valid JSON parses to a value of
which only truthiness is retained, and an invalid string throws
(returns `none`). -/
def jsonParseUser (s : String) : Option UserVal :=
  match parseUser s with
  | some u => some (UserVal.profile u)
  | none => if jsonValid s then some (UserVal.junk (jsonTruthy s)) else none

/-- The persisted key-value store (`localStorage` keys `access_token`,
`refresh_token`, `user`). -/
structure LocalStorage where
  accessTok : Option String
  refreshTok : Option String
  userStr : Option String
deriving DecidableEq, Repr

/-- The mutable state of the `AuthService` singleton: the in-memory
`this.tokens` pair, `this.user`, and the persistent store. -/
structure Svc where
  memAccess : Option String
  memRefresh : Option String
  memUser : Option UserVal
  store : LocalStorage
deriving DecidableEq, Repr

/-- `AuthService.setTokens`: replaces both in-memory tokens and
writes through (a falsy token removes the persisted entry). -/
def setTokens (s : Svc) (a r : Option String) : Svc :=
  { s with
    memAccess := a
    memRefresh := r
    store := { s.store with
      accessTok := if jsTruthyStr a then a else none
      refreshTok := if jsTruthyStr r then r else none } }

/-- `AuthService.setUser`: replaces the in-memory profile and persists
its serialization (a falsy argument removes the persisted entry). -/
def setUser (s : Svc) (u : Option UserProfile) : Svc :=
  { s with
    memUser := u.map UserVal.profile
    store := { s.store with userStr := u.map (fun p => stringifyUser p) } }

/-- `AuthService.clearAuth`: wipes in-memory state and all three
persisted entries. -/
def clearAuth (_s : Svc) : Svc :=
  { memAccess := none
    memRefresh := none
    memUser := none
    store := { accessTok := none, refreshTok := none, userStr := none } }

/-- `AuthService.getAccessToken`: in-memory value with a `||` fallback to
the persisted entry. -/
def getAccessToken (s : Svc) : Option String :=
  jsOrStr s.memAccess s.store.accessTok

/-- `AuthService.getRefreshToken`. -/
def getRefreshToken (s : Svc) : Option String :=
  jsOrStr s.memRefresh s.store.refreshTok

/-- Body of `AuthService.getUser`, parameterized by the outcome of the
`localStorage.getItem("user")` read (`Except.error` models the read
throwing; all of it runs inside the source's `try`/`catch`).  Returns the
value handed to the caller and the new `this.user` (`getUser` memoizes a
successful parse). -/
def getUserRead (mem : Option UserVal) (read : Except Unit (Option String)) :
    Option UserVal × Option UserVal :=
  if jsTruthyUser mem then (mem, mem)
  else
    match read with
    | Except.error _ => (none, mem)
    | Except.ok none => (none, mem)
    | Except.ok (some str) =>
      if str = "" then (none, mem)
      else
        match jsonParseUser str with
        | some v => (some v, some v)
        | none => (none, mem)

/-- `AuthService.getUser` against the store, returning the value and the
updated service state. -/
def getUser (s : Svc) : Option UserVal × Svc :=
  let r := getUserRead s.memUser (Except.ok s.store.userStr)
  (r.1, { s with memUser := r.2 })

/-- `AuthService.isAuthenticated`: `!!(this.getAccessToken() && this.getUser())`
(with JavaScript short-circuiting, so `getUser` runs only when the access
token is truthy). -/
def isAuthenticated (s : Svc) : Bool × Svc :=
  let a := getAccessToken s
  if jsTruthyStr a then
    let r := getUser s
    (jsTruthyUser r.1, r.2)
  else (false, s)

/-- `AuthService._loadFromStorage` (run by the constructor): hydrates the
in-memory copy from the persisted entries; if `JSON.parse` of the user
entry throws, the `catch` resets tokens and user to `null`. -/
def loadFromStorage (st : LocalStorage) : Svc :=
  match st.userStr with
  | none =>
    { memAccess := st.accessTok, memRefresh := st.refreshTok
      memUser := none, store := st }
  | some v =>
    if v = "" then
      { memAccess := st.accessTok, memRefresh := st.refreshTok
        memUser := none, store := st }
    else
      match jsonParseUser v with
      | some u =>
        { memAccess := st.accessTok, memRefresh := st.refreshTok
          memUser := some u, store := st }
      | none =>
        { memAccess := none, memRefresh := none, memUser := none, store := st }

/-- The service as constructed over an empty persistent store. -/
def bootSvc : Svc :=
  loadFromStorage { accessTok := none, refreshTok := none, userStr := none }

/-- Errors thrown by the refresh path of the source (`Error` objects,
distinguished here by their message). -/
inductive RefreshErr
  | noRefreshToken
  | refreshRejected
  | invalidResponse
  | jsonParseErr
  | network
deriving DecidableEq, Repr

/-- The `data` field of a refresh response body; each field of the
destructuring `const { access_token, refresh_token, user } = data.data`
may be absent. -/
structure RData where
  access_token : Option String
  refresh_token : Option String
  user : Option UserProfile
deriving DecidableEq, Repr

/-- A parsed refresh response body (`data?.status`, `data?.data`). -/
structure RBody where
  status : Option String
  data : Option RData
deriving DecidableEq, Repr

/-- The body of an HTTP refresh response: either `res.json()` rejects, or
it yields a parsed body. -/
inductive RespBody
  | notJson
  | json (b : RBody)
deriving DecidableEq, Repr

/-- The environment's answer to the refresh `fetch`: network failure, or a
response with `res.ok` status and a body. -/
inductive RefreshHttp
  | netErr
  | resp (ok : Bool) (body : RespBody)
deriving DecidableEq, Repr

/-- The part of `AuthService.refreshAccessToken` that runs once the
refresh `fetch` has been issued: checks `res.ok`, parses the body, and
either commits the new credential pair (and profile, if returned) or
clears the session and throws. -/
def processRefreshResp (s : Svc) (env : RefreshHttp) :
    Except RefreshErr (Option String) × Svc :=
  match env with
  | RefreshHttp.netErr => (Except.error RefreshErr.network, s)
  | RefreshHttp.resp ok body =>
    if ok = false then (Except.error RefreshErr.refreshRejected, clearAuth s)
    else
      match body with
      | RespBody.notJson => (Except.error RefreshErr.jsonParseErr, s)
      | RespBody.json b =>
        if b.status = some "success" then
          match b.data with
          | some d =>
            let s1 := setTokens s d.access_token d.refresh_token
            let s2 := match d.user with
              | some u => setUser s1 (some u)
              | none => s1
            (Except.ok d.access_token, s2)
          | none => (Except.error RefreshErr.invalidResponse, clearAuth s)
        else (Except.error RefreshErr.invalidResponse, clearAuth s)

/-- The outbound refresh request as it appears on the wire. -/
structure RefreshRequest where
  method : String
  path : String
  authHeader : Option String
deriving DecidableEq, Repr

/-- `AuthService.refreshAccessToken` in full, as a function of the
environment's response: the guard throws `noRefreshToken` (clearing the
session) when no refresh token is available, otherwise the request is
issued with the refresh token as a bearer credential and the response is
processed.  The third component records the request sent, if any. -/
def refreshAccessToken (s : Svc) (env : RefreshHttp) :
    Except RefreshErr (Option String) × Svc × Option RefreshRequest :=
  let rt := getRefreshToken s
  if jsTruthyStr rt then
    let req : RefreshRequest :=
      { method := "POST", path := "/auth/refresh", authHeader := some (bearerOf rt) }
    let pr := processRefreshResp s env
    (pr.1, pr.2, some req)
  else
    (Except.error RefreshErr.noRefreshToken, clearAuth s, none)

/-- The control state of one `authenticatedFetch` caller, between two
suspension points of the source. -/
inductive TaskSt
  | start
  | awaitFirst (auth : Option String)
  | queued (auth : Option String)
  | leader (auth : Option String)
  | resolvedQ (auth : Option String) (newAccess : Option String)
  | rejectedQ (auth : Option String) (err : RefreshErr)
  | awaitRetry (auth : Option String)
  | done (status : Nat)
  | failed (err : RefreshErr)
deriving DecidableEq, Repr

/-- A network request recorded in the trace: an API call of a given task
(attempt 1 = original, attempt 2 = retry) with its authorization header,
or a refresh-endpoint call. -/
inductive NetReq
  | apiCall (tid : Nat) (attempt : Nat) (auth : Option String)
  | refreshCall (auth : Option String)
deriving DecidableEq, Repr

/-- The global state: the shared service singleton (with its
`refreshInProgress` flag and waiter queue), every caller's control state,
and the trace of issued network requests. -/
structure GState where
  svc : Svc
  refreshInProgress : Bool
  refreshQueue : List Nat
  tasks : List TaskSt
  trace : List NetReq
deriving DecidableEq, Repr

/-- Resolve every queued waiter with the new access token
(`this.refreshQueue.forEach(q => q.resolve(newAccess))`). -/
def resolveAll (ts : List TaskSt) (q : List Nat) (a : Option String) : List TaskSt :=
  q.foldl (fun acc j =>
    match acc[j]? with
    | some (TaskSt.queued h) => acc.set j (TaskSt.resolvedQ h a)
    | _ => acc) ts

/-- Reject every queued waiter with the error
(`this.refreshQueue.forEach(q => q.reject(err))`). -/
def rejectAll (ts : List TaskSt) (q : List Nat) (e : RefreshErr) : List TaskSt :=
  q.foldl (fun acc j =>
    match acc[j]? with
    | some (TaskSt.queued h) => acc.set j (TaskSt.rejectedQ h e)
    | _ => acc) ts

/-- Events: each is one synchronous segment of the event loop.  `start`
runs `authenticatedFetch` up to the first `fetch`; the response/failure
events deliver a network outcome to the continuation awaiting it and run
that continuation to its next suspension; `resume` runs a settled
waiter's continuation. -/
inductive Ev
  | start (i : Nat)
  | firstResp (i : Nat) (status : Nat)
  | firstFail (i : Nat)
  | refreshResp (i : Nat) (env : RefreshHttp)
  | resume (i : Nat)
  | retryResp (i : Nat) (status : Nat)
  | retryFail (i : Nat)
deriving DecidableEq, Repr

/-- The authorization header attached by `authenticatedFetch` to the
first attempt: a bearer header iff the current access token is truthy. -/
def startAuth (s : Svc) : Option String :=
  if jsTruthyStr (getAccessToken s) then some (bearerOf (getAccessToken s)) else none

/-- `authenticatedFetch` up to the first `fetch`: reads the access token
and attaches a bearer header iff it is truthy. -/
def doStart (g : GState) (i : Nat) : GState :=
  match g.tasks[i]? with
  | some TaskSt.start =>
    { g with
      tasks := g.tasks.set i (TaskSt.awaitFirst (startAuth g.svc))
      trace := g.trace ++ [NetReq.apiCall i 1 (startAuth g.svc)] }
  | _ => g

/-- Delivery of the first response.  A non-401 status is returned to the
caller as-is.  On 401 the caller runs `_enqueueRefresh`: if a refresh is
in flight it joins the waiter queue; otherwise it sets the flag and runs
`refreshAccessToken` up to the refresh `fetch` — issuing the refresh
request if a refresh token is available, and otherwise clearing the
session, rejecting the queue and failing with `noRefreshToken`. -/
def doFirstResp (g : GState) (i status : Nat) : GState :=
  match g.tasks[i]? with
  | some (TaskSt.awaitFirst auth) =>
    if status ≠ 401 then
      { g with tasks := g.tasks.set i (TaskSt.done status) }
    else if g.refreshInProgress then
      { g with
        tasks := g.tasks.set i (TaskSt.queued auth)
        refreshQueue := g.refreshQueue ++ [i] }
    else
      let rt := getRefreshToken g.svc
      if jsTruthyStr rt then
        { g with
          refreshInProgress := true
          tasks := g.tasks.set i (TaskSt.leader auth)
          trace := g.trace ++ [NetReq.refreshCall (some (bearerOf rt))] }
      else
        { svc := clearAuth g.svc
          refreshInProgress := false
          refreshQueue := []
          tasks := (rejectAll g.tasks g.refreshQueue RefreshErr.noRefreshToken).set i
            (TaskSt.failed RefreshErr.noRefreshToken)
          trace := g.trace }
  | _ => g

/-- A network failure of the first `fetch` propagates to the caller
unchanged (`catch (err) { throw err; }`). -/
def doFirstFail (g : GState) (i : Nat) : GState :=
  match g.tasks[i]? with
  | some (TaskSt.awaitFirst _) =>
    { g with tasks := g.tasks.set i (TaskSt.failed RefreshErr.network) }
  | _ => g

/-- Delivery of the refresh response to the leader: on success the new
pair is committed, the flag cleared, every waiter resolved with the new
access token and the leader's retry issued with it; on failure the flag
is cleared, every waiter rejected with the same error, and the leader's
`catch` clears the session and rethrows. -/
def doRefreshResp (g : GState) (i : Nat) (env : RefreshHttp) : GState :=
  match g.tasks[i]? with
  | some (TaskSt.leader _) =>
    let pr := processRefreshResp g.svc env
    match pr.1 with
    | Except.ok newAccess =>
      let auth2 := some (bearerOf newAccess)
      { svc := pr.2
        refreshInProgress := false
        refreshQueue := []
        tasks := (resolveAll g.tasks g.refreshQueue newAccess).set i
          (TaskSt.awaitRetry auth2)
        trace := g.trace ++ [NetReq.apiCall i 2 auth2] }
    | Except.error e =>
      { svc := clearAuth pr.2
        refreshInProgress := false
        refreshQueue := []
        tasks := (rejectAll g.tasks g.refreshQueue e).set i (TaskSt.failed e)
        trace := g.trace }
  | _ => g

/-- A settled waiter's continuation: a resolved waiter attaches the new
token and issues its retry; a rejected waiter's `catch` clears the
session and rethrows the shared error. -/
def doResume (g : GState) (i : Nat) : GState :=
  match g.tasks[i]? with
  | some (TaskSt.resolvedQ _ a) =>
    let auth2 := some (bearerOf a)
    { g with
      tasks := g.tasks.set i (TaskSt.awaitRetry auth2)
      trace := g.trace ++ [NetReq.apiCall i 2 auth2] }
  | some (TaskSt.rejectedQ _ e) =>
    { g with
      svc := clearAuth g.svc
      tasks := g.tasks.set i (TaskSt.failed e) }
  | _ => g

/-- Delivery of the retry response: returned to the caller as-is (the 401
branch has already run, so even a 401 is not retried again). -/
def doRetryResp (g : GState) (i status : Nat) : GState :=
  match g.tasks[i]? with
  | some (TaskSt.awaitRetry _) =>
    { g with tasks := g.tasks.set i (TaskSt.done status) }
  | _ => g

/-- A network failure of the retry `fetch` is caught by the refresh
`catch` block, which clears the session and rethrows. -/
def doRetryFail (g : GState) (i : Nat) : GState :=
  match g.tasks[i]? with
  | some (TaskSt.awaitRetry _) =>
    { g with
      svc := clearAuth g.svc
      tasks := g.tasks.set i (TaskSt.failed RefreshErr.network) }
  | _ => g

/-- One step of the event system. -/
def step (g : GState) : Ev → GState
  | Ev.start i => doStart g i
  | Ev.firstResp i status => doFirstResp g i status
  | Ev.firstFail i => doFirstFail g i
  | Ev.refreshResp i env => doRefreshResp g i env
  | Ev.resume i => doResume g i
  | Ev.retryResp i status => doRetryResp g i status
  | Ev.retryFail i => doRetryFail g i

/-- Run a schedule of events. -/
def run (g : GState) (evs : List Ev) : GState :=
  evs.foldl step g

/-- Initial state: the shared service with an idle coordinator and `n`
dispatch callers about to run. -/
def initG (s : Svc) (n : Nat) : GState :=
  { svc := s
    refreshInProgress := false
    refreshQueue := []
    tasks := List.replicate n TaskSt.start
    trace := [] }

theorem char_eq_of_toNat_eq {a b : Char} (h : a.toNat = b.toNat) : a = b := by
  cases a; cases b
  simp only [Char.toNat] at h
  congr 1
  exact UInt32.ext h

theorem toNat_ofNat_char {k : Nat} (h : k < 55296) : (Char.ofNat k).toNat = k := by
  have hv : Nat.isValidChar k := Or.inl h
  simp [Char.ofNat, hv, Char.ofNatAux, Char.toNat, UInt32.toNat, Nat.toUInt32,
    UInt32.ofNatCore]

theorem digitChar_toNat {m : Nat} (h : m < 10) : (digitChar m).toNat = 48 + m := by
  interval_cases m <;> rfl

theorem digitChar_isDigit {m : Nat} (h : m < 10) : isDigitCh (digitChar m) = true := by
  interval_cases m <;> decide

theorem digitChar_ne_zero {m : Nat} (h1 : m < 10) (h2 : m ≠ 0) : digitChar m ≠ '0' := by
  interval_cases m
  · exact absurd rfl h2
  all_goals decide

theorem natDigitsF_irrel : ∀ (n f1 f2 : Nat), n < f1 → n < f2 →
    natDigitsF f1 n = natDigitsF f2 n := by
  intro n
  induction n using Nat.strong_induction_on with
  | _ n ih =>
    intro f1 f2 hf1 hf2
    match f1, f2 with
    | a + 1, b + 1 =>
      by_cases h : n < 10
      · simp [natDigitsF, h]
      · have hlt : n / 10 < n := Nat.div_lt_self (by omega) (by omega)
        simp only [natDigitsF, if_neg h]
        rw [ih (n / 10) hlt a b (by omega) (by omega)]

theorem natDigits_eq (n : Nat) :
    natDigits n = if n < 10 then [digitChar n]
      else natDigits (n / 10) ++ [digitChar (n % 10)] := by
  by_cases h : n < 10
  · simp [natDigits, natDigitsF, h]
  · rw [if_neg h]
    show natDigitsF (n + 1) n = _
    simp only [natDigitsF, if_neg h]
    rw [natDigitsF_irrel (n / 10) n (n / 10 + 1)
      (Nat.div_lt_self (by omega) (by omega)) (by omega)]
    rfl

theorem parseDigitsAux_natDigits : ∀ (n acc : Nat) (l : List Char),
    parseDigitsAux acc (natDigits n ++ l) =
      parseDigitsAux (acc * 10 ^ (natDigits n).length + n) l := by
  intro n
  induction n using Nat.strong_induction_on with
  | _ n ih =>
    intro acc l
    rw [natDigits_eq n]
    by_cases h : n < 10
    · simp only [if_pos h, List.singleton_append, List.length_singleton,
        parseDigitsAux, digitChar_isDigit h, if_true, digitChar_toNat h,
        pow_one]
      congr 1
      omega
    · have hlt : n / 10 < n := Nat.div_lt_self (by omega) (by omega)
      have hm : n % 10 < 10 := Nat.mod_lt _ (by omega)
      simp only [if_neg h, List.append_assoc, List.cons_append,
        List.nil_append]
      rw [ih (n / 10) hlt acc (digitChar (n % 10) :: l)]
      simp only [parseDigitsAux, digitChar_isDigit hm, if_true,
        digitChar_toNat hm, List.length_append, List.length_singleton]
      congr 1
      rw [pow_succ, ← mul_assoc]
      have hd : 10 * (n / 10) + n % 10 = n := Nat.div_add_mod n 10
      omega

/-- Whether the input does not begin with a decimal digit (so a greedy
digit scan stops). -/
def headNotDigit : List Char → Bool
  | [] => true
  | c :: _ => !isDigitCh c

theorem parseDigitsAux_stop (acc : Nat) (l : List Char)
    (h : headNotDigit l = true) : parseDigitsAux acc l = (acc, l) := by
  cases l with
  | nil => rfl
  | cons c cs =>
    simp only [headNotDigit, Bool.not_eq_true'] at h
    simp [parseDigitsAux, h]

theorem natDigits_head_pos : ∀ (n : Nat), n ≠ 0 →
    ∃ c t, natDigits n = c :: t ∧ isDigitCh c = true ∧ c ≠ '0' := by
  intro n
  induction n using Nat.strong_induction_on with
  | _ n ih =>
    intro hn
    rw [natDigits_eq n]
    by_cases h : n < 10
    · exact ⟨digitChar n, [], by simp [h],
        digitChar_isDigit h, digitChar_ne_zero h hn⟩
    · have hlt : n / 10 < n := Nat.div_lt_self (by omega) (by omega)
      obtain ⟨c, t, he, h1, h2⟩ := ih (n / 10) hlt (by omega)
      exact ⟨c, t ++ [digitChar (n % 10)], by simp [h, he], h1, h2⟩

theorem parseJsonNat_natDigits (n : Nat) (l : List Char)
    (h : headNotDigit l = true) :
    parseJsonNat (natDigits n ++ l) = some (n, l) := by
  have key : parseDigitsAux 0 (natDigits n ++ l) = (n, l) := by
    rw [parseDigitsAux_natDigits]
    simpa using parseDigitsAux_stop n l h
  by_cases hn : n = 0
  · subst hn
    rw [natDigits_eq 0]
    simp [parseJsonNat, digitChar]
  · obtain ⟨c, t, he, hd, hz⟩ := natDigits_head_pos n hn
    rw [he] at key ⊢
    rw [List.cons_append] at key ⊢
    have hstep : parseDigitsAux 0 (c :: (t ++ l)) =
        parseDigitsAux (c.toNat - 48) (t ++ l) := by
      simp [parseDigitsAux, hd]
    rw [hstep] at key
    simp [parseJsonNat, hz, hd, key]

theorem hexVal_hexDigitChar {m : Nat} (h : m < 16) :
    hexVal (hexDigitChar m) = some m := by
  interval_cases m <;> decide

theorem stripLit_self : ∀ (p l : List Char), stripLit p (p ++ l) = some l := by
  intro p
  induction p with
  | nil => intro l; rfl
  | cons c cs ih => intro l; simp [stripLit, ih]

theorem stripLit_cons_self (c : Char) (p l : List Char) :
    stripLit (c :: p) (c :: (p ++ l)) = some l := by
  simp [stripLit, stripLit_self]


/-- Prepend a decoded character to a string-body parse result. -/
def consRes (c : Char) : Option (List Char × List Char) → Option (List Char × List Char)
  | some (l, r) => some (c :: l, r)
  | none => none

theorem parseStrBody_quote (r : List Char) :
    parseStrBody ('"' :: r) = some ([], r) := by
  rw [parseStrBody.eq_def]
  simp

theorem parseStrBody_esc_simple (e c : Char) (r : List Char)
    (he : ¬ e = 'u') (hu : unescChar e = some c) :
    parseStrBody ('\\' :: e :: r) = consRes c (parseStrBody r) := by
  rw [parseStrBody.eq_def]
  simp [he, hu, consRes]

theorem parseStrBody_esc_u (c1 c2 c3 c4 : Char) (a b e d : Nat) (r : List Char)
    (h1 : hexVal c1 = some a) (h2 : hexVal c2 = some b)
    (h3 : hexVal c3 = some e) (h4 : hexVal c4 = some d) :
    parseStrBody ('\\' :: 'u' :: c1 :: c2 :: c3 :: c4 :: r) =
      consRes (Char.ofNat (((a * 16 + b) * 16 + e) * 16 + d)) (parseStrBody r) := by
  rw [parseStrBody.eq_def]
  simp [h1, h2, h3, h4, consRes]

theorem parseStrBody_lit (c : Char) (r : List Char)
    (hq : ¬ c = '"') (hb : ¬ c = '\\') (hc : ¬ c.toNat < 32) :
    parseStrBody (c :: r) = consRes c (parseStrBody r) := by
  rw [parseStrBody.eq_def]
  simp [hq, hb, hc, consRes]

theorem consRes_some (c : Char) (l r : List Char) :
    consRes c (some (l, r)) = some (c :: l, r) := rfl

theorem parseStrBody_escape : ∀ (l rest : List Char),
    parseStrBody (escapeList l ++ '"' :: rest) = some (l, rest) := by
  intro l
  induction l with
  | nil => intro rest; simpa [escapeList] using parseStrBody_quote rest
  | cons c cs ih =>
    intro rest
    show parseStrBody ((escapeChar c ++ escapeList cs) ++ '"' :: rest) = _
    rw [List.append_assoc]
    by_cases h1 : c = '"'
    · subst h1
      have he : escapeChar '"' = ['\\', '"'] := by decide
      rw [he, List.cons_append, List.cons_append, List.nil_append,
        parseStrBody_esc_simple '"' '"' _ (by decide) (by decide), ih rest,
        consRes_some]
    · by_cases h2 : c = '\\'
      · subst h2
        have he : escapeChar '\\' = ['\\', '\\'] := by decide
        rw [he, List.cons_append, List.cons_append, List.nil_append,
          parseStrBody_esc_simple '\\' '\\' _ (by decide) (by decide), ih rest,
          consRes_some]
      · by_cases h3 : c.toNat = 8
        · have hc : Char.ofNat 8 = c :=
            char_eq_of_toNat_eq (by rw [toNat_ofNat_char (by omega)]; omega)
          simp only [escapeChar, if_neg h1, if_neg h2, if_pos h3,
            List.cons_append, List.nil_append]
          rw [parseStrBody_esc_simple 'b' (Char.ofNat 8) _ (by decide)
            (by decide), ih rest, consRes_some, hc]
        · by_cases h4 : c.toNat = 9
          · have hc : Char.ofNat 9 = c :=
              char_eq_of_toNat_eq (by rw [toNat_ofNat_char (by omega)]; omega)
            simp only [escapeChar, if_neg h1, if_neg h2, if_neg h3, if_pos h4,
              List.cons_append, List.nil_append]
            rw [parseStrBody_esc_simple 't' (Char.ofNat 9) _ (by decide)
              (by decide), ih rest, consRes_some, hc]
          · by_cases h5 : c.toNat = 10
            · have hc : Char.ofNat 10 = c :=
                char_eq_of_toNat_eq (by rw [toNat_ofNat_char (by omega)]; omega)
              simp only [escapeChar, if_neg h1, if_neg h2, if_neg h3,
                if_neg h4, if_pos h5, List.cons_append, List.nil_append]
              rw [parseStrBody_esc_simple 'n' (Char.ofNat 10) _ (by decide)
                (by decide), ih rest, consRes_some, hc]
            · by_cases h6 : c.toNat = 12
              · have hc : Char.ofNat 12 = c :=
                  char_eq_of_toNat_eq (by rw [toNat_ofNat_char (by omega)]; omega)
                simp only [escapeChar, if_neg h1, if_neg h2, if_neg h3,
                  if_neg h4, if_neg h5, if_pos h6, List.cons_append,
                  List.nil_append]
                rw [parseStrBody_esc_simple 'f' (Char.ofNat 12) _ (by decide)
                  (by decide), ih rest, consRes_some, hc]
              · by_cases h7 : c.toNat = 13
                · have hc : Char.ofNat 13 = c :=
                    char_eq_of_toNat_eq (by rw [toNat_ofNat_char (by omega)]; omega)
                  simp only [escapeChar, if_neg h1, if_neg h2, if_neg h3,
                    if_neg h4, if_neg h5, if_neg h6, if_pos h7,
                    List.cons_append, List.nil_append]
                  rw [parseStrBody_esc_simple 'r' (Char.ofNat 13) _ (by decide)
                    (by decide), ih rest, consRes_some, hc]
                · by_cases h8 : c.toNat < 32
                  · have hv1 := hexVal_hexDigitChar
                      (show c.toNat / 16 < 16 by omega)
                    have hv2 := hexVal_hexDigitChar
                      (show c.toNat % 16 < 16 by omega)
                    have hz : hexVal '0' = some 0 := by decide
                    have hc : Char.ofNat c.toNat = c :=
                      char_eq_of_toNat_eq (toNat_ofNat_char (by omega))
                    simp only [escapeChar, if_neg h1, if_neg h2, if_neg h3,
                      if_neg h4, if_neg h5, if_neg h6, if_neg h7, if_pos h8,
                      List.cons_append, List.nil_append]
                    rw [parseStrBody_esc_u '0' '0' (hexDigitChar (c.toNat / 16))
                      (hexDigitChar (c.toNat % 16)) 0 0 (c.toNat / 16)
                      (c.toNat % 16) _ hz hz hv1 hv2, ih rest, consRes_some]
                    have harith :
                        ((0 * 16 + 0) * 16 + c.toNat / 16) * 16 + c.toNat % 16 =
                          c.toNat := by omega
                    rw [harith, hc]
                  · simp only [escapeChar, if_neg h1, if_neg h2, if_neg h3,
                      if_neg h4, if_neg h5, if_neg h6, if_neg h7, if_neg h8,
                      List.cons_append, List.nil_append]
                    rw [parseStrBody_lit c _ h1 h2 h8, ih rest, consRes_some]

theorem parseQuoted_jsonQuote (s : String) (rest : List Char) :
    parseQuoted (jsonQuote s ++ rest) = some (s, rest) := by
  have h1 : jsonQuote s ++ rest = '"' :: (escapeList s.data ++ '"' :: rest) := by
    simp [jsonQuote]
  rw [h1]
  simp [parseQuoted, parseStrBody_escape s.data rest]

theorem stripLit_cons_both (c : Char) (p l : List Char) :
    stripLit (c :: p) (c :: l) = stripLit p l := by
  simp [stripLit]

theorem parseJsonNat_head (n : Nat) (c : Char) (l : List Char)
    (h : isDigitCh c = false) :
    parseJsonNat (natDigits n ++ c :: l) = some (n, c :: l) := by
  apply parseJsonNat_natDigits
  simp [headNotDigit, h]

theorem parseUser_stringifyUser (u : UserProfile) :
    parseUser (stringifyUser u) = some u := by
  obtain ⟨i, nm, em, ro⟩ := u
  show parseUserChars (stringifyUserChars ⟨i, nm, em, ro⟩) = _
  unfold stringifyUserChars parseUserChars
  simp only [List.cons_append, List.append_assoc, List.nil_append]
  simp only [stripLit_cons_both, stripLit, if_true, eq_self_iff_true]
  rw [parseJsonNat_head i ',' _ (by decide)]
  simp only [stripLit_cons_both, stripLit, if_true, eq_self_iff_true]
  rw [parseQuoted_jsonQuote]
  simp only [stripLit_cons_both, stripLit, if_true, eq_self_iff_true]
  rw [parseQuoted_jsonQuote]
  simp only [stripLit_cons_both, stripLit, if_true, eq_self_iff_true]
  rw [parseQuoted_jsonQuote]
  simp only [stripLit_cons_both, stripLit, if_true, eq_self_iff_true]

theorem jsonParseUser_stringifyUser (u : UserProfile) :
    jsonParseUser (stringifyUser u) = some (UserVal.profile u) := by
  simp [jsonParseUser, parseUser_stringifyUser]

theorem stringifyUser_ne_empty (u : UserProfile) : stringifyUser u ≠ "" := by
  intro h
  have h2 : (stringifyUser u).data = "".data := by rw [h]
  have h3 : (stringifyUser u).data = stringifyUserChars u := rfl
  have h4 : "".data = ([] : List Char) := rfl
  rw [h3, h4] at h2
  exact absurd h2 (by simp [stringifyUserChars])

/-- C8 The credential store after `clearAuth`, whatever the starting
state: every getter returns absent, the persistent entries are gone, and
`isAuthenticated` is false. -/
theorem clearAuth_wipes (s : Svc) :
    getAccessToken (clearAuth s) = none ∧
    getRefreshToken (clearAuth s) = none ∧
    (getUser (clearAuth s)).1 = none ∧
    (clearAuth s).store = { accessTok := none, refreshTok := none, userStr := none } ∧
    (isAuthenticated (clearAuth s)).1 = false :=
  ⟨rfl, rfl, rfl, rfl, rfl⟩

/-- C8: performing `setCredentials(a, r)` (and optionally `setUser(u)`)
followed by `clear()` leaves `getAccessToken`, `getRefreshToken`, and
`getUser` all returning absent — including their fall-back reads of the
persistent store, whose three entries are removed — and
`isAuthenticated()` returning false, from every starting state. -/
theorem c8_clear_wipes (s : Svc) (a r : Option String) (u : UserProfile) :
    (getAccessToken (clearAuth (setUser (setTokens s a r) (some u))) = none ∧
     getRefreshToken (clearAuth (setUser (setTokens s a r) (some u))) = none ∧
     (getUser (clearAuth (setUser (setTokens s a r) (some u)))).1 = none ∧
     (clearAuth (setUser (setTokens s a r) (some u))).store =
       { accessTok := none, refreshTok := none, userStr := none } ∧
     (isAuthenticated (clearAuth (setUser (setTokens s a r) (some u)))).1 = false) ∧
    (getAccessToken (clearAuth (setTokens s a r)) = none ∧
     getRefreshToken (clearAuth (setTokens s a r)) = none ∧
     (getUser (clearAuth (setTokens s a r))).1 = none ∧
     (clearAuth (setTokens s a r)).store =
       { accessTok := none, refreshTok := none, userStr := none } ∧
     (isAuthenticated (clearAuth (setTokens s a r))).1 = false) :=
  ⟨clearAuth_wipes _, clearAuth_wipes _⟩

/-- C6 (amended): the persistence round trip.  For every starting state,
every non-empty access and refresh token and every user profile,
`setCredentials(a, r); setUser(u)` followed by a simulated process
restart (re-hydration from the persistent store) yields the same access
token, the same refresh token, and a user deep-equal to `u`.  (The
non-emptiness hypotheses are forced: an empty-string token is falsy in
the source, so `setTokens` removes the persisted entry instead of
writing it, and the reload yields `null`.) -/
theorem c6_persistence_roundtrip (s : Svc) (a r : String) (u : UserProfile)
    (ha : a ≠ "") (hr : r ≠ "") :
    getAccessToken (loadFromStorage
      (setUser (setTokens s (some a) (some r)) (some u)).store) = some a ∧
    getRefreshToken (loadFromStorage
      (setUser (setTokens s (some a) (some r)) (some u)).store) = some r ∧
    (getUser (loadFromStorage
      (setUser (setTokens s (some a) (some r)) (some u)).store)).1 =
      some (UserVal.profile u) := by
  have hne := stringifyUser_ne_empty u
  simp [loadFromStorage, setUser, setTokens, getAccessToken, getRefreshToken,
    getUser, getUserRead, jsOrStr, jsTruthyStr, jsTruthyUser, ha, hr, hne,
    jsonParseUser_stringifyUser]

/-- C6 witness: the round trip at a concrete state, tokens and profile. -/
theorem c6_persistence_roundtrip_witness :
    getAccessToken (loadFromStorage
      (setUser (setTokens bootSvc (some "A1") (some "R1"))
        (some ⟨1, "Jo", "jo@x.co", "patient"⟩)).store) = some "A1" ∧
    getRefreshToken (loadFromStorage
      (setUser (setTokens bootSvc (some "A1") (some "R1"))
        (some ⟨1, "Jo", "jo@x.co", "patient"⟩)).store) = some "R1" ∧
    (getUser (loadFromStorage
      (setUser (setTokens bootSvc (some "A1") (some "R1"))
        (some ⟨1, "Jo", "jo@x.co", "patient"⟩)).store)).1 =
      some (UserVal.profile ⟨1, "Jo", "jo@x.co", "patient"⟩) :=
  c6_persistence_roundtrip bootSvc "A1" "R1" ⟨1, "Jo", "jo@x.co", "patient"⟩
    (by decide) (by decide)

/-- C6 counterexample to the claim as stated: with the empty string as
access token (`a = ""`, a string like any other), `setCredentials("", "R1");
setUser(u)` followed by re-hydration yields `getAccessToken() = null`,
not `""`: the falsy token was never persisted. -/
theorem c6_counterexample :
    getAccessToken (loadFromStorage
      (setUser (setTokens bootSvc (some "") (some "R1"))
        (some ⟨1, "Jo", "jo@x.co", "patient"⟩)).store) = none ∧
    ¬ getAccessToken (loadFromStorage
      (setUser (setTokens bootSvc (some "") (some "R1"))
        (some ⟨1, "Jo", "jo@x.co", "patient"⟩)).store) = some "" := by
  constructor <;> decide

/-- C10: if the in-memory user was never hydrated and the persisted user
entry fails JSON parsing (or the persistent-store read itself throws),
`getUser()` returns absent instead of raising, and `isAuthenticated()`
is false. -/
theorem c10_hydration_failure_degrades :
    (∀ (s : Svc) (v : String), s.memUser = none → jsonParseUser v = none →
      (getUser { s with store := { s.store with userStr := some v } }).1 = none ∧
      (isAuthenticated { s with store := { s.store with userStr := some v } }).1 = false) ∧
    (∀ (mem : Option UserVal), jsTruthyUser mem = false →
      (getUserRead mem (Except.error ())).1 = none) := by
  constructor
  · intro s v hmem hv
    have hg : (getUser { s with store := { s.store with userStr := some v } }).1 = none := by
      by_cases hve : v = ""
      · simp [getUser, getUserRead, hmem, jsTruthyUser, hve]
      · simp [getUser, getUserRead, hmem, jsTruthyUser, hve, hv]
    refine ⟨hg, ?_⟩
    by_cases ht : jsTruthyStr (getAccessToken { s with store := { s.store with userStr := some v } })
    · simp [isAuthenticated, ht, hg, jsTruthyUser]
    · simp [isAuthenticated, ht]
  · intro mem hmem
    simp [getUserRead, hmem]

/-- C10 witness: a concrete malformed persisted entry and a throwing
read. -/
theorem c10_hydration_failure_degrades_witness :
    (getUser { bootSvc with store := { bootSvc.store with userStr := some "not json" } }).1 = none ∧
    (isAuthenticated { bootSvc with store := { bootSvc.store with userStr := some "not json" } }).1 = false ∧
    (getUserRead none (Except.error ())).1 = none :=
  ⟨(c10_hydration_failure_degrades.1 bootSvc "not json" rfl (by decide)).1,
   (c10_hydration_failure_degrades.1 bootSvc "not json" rfl (by decide)).2,
   c10_hydration_failure_degrades.2 none rfl⟩

/-- The service states reachable through the session layer's own
operations, starting from the constructor over an empty persistent store:
`setTokens` (with arbitrary, possibly falsy arguments), `setUser`,
`clearAuth`, the memoizing reads, and a process restart re-hydrating
from the persisted entries.  The commits performed by a successful
refresh are compositions of `setTokens` and `setUser` and are covered. -/
inductive Reachable : Svc → Prop
  | boot : Reachable bootSvc
  | setTok (s : Svc) (a r : Option String) : Reachable s → Reachable (setTokens s a r)
  | setUsr (s : Svc) (u : Option UserProfile) : Reachable s → Reachable (setUser s u)
  | clear (s : Svc) : Reachable s → Reachable (clearAuth s)
  | readUser (s : Svc) : Reachable s → Reachable (getUser s).2
  | readAuth (s : Svc) : Reachable s → Reachable (isAuthenticated s).2
  | restart (s : Svc) : Reachable s → Reachable (loadFromStorage s.store)

/-- A persisted user entry the program itself can have written: absent,
empty, or a string parsing to a profile. -/
def GoodCell : Option String → Prop
  | none => True
  | some v => v = "" ∨ ∃ u, jsonParseUser v = some (UserVal.profile u)

/-- Invariant of reachable service states: the persisted access token is
never the empty string, and the in-memory and persisted user are absent
or an actual profile. -/
structure SvcInv (s : Svc) : Prop where
  acc : s.store.accessTok ≠ some ""
  mem : s.memUser = none ∨ ∃ u, s.memUser = some (UserVal.profile u)
  cell : GoodCell s.store.userStr

theorem loadFromStorage_store (st : LocalStorage) :
    (loadFromStorage st).store = st := by
  unfold loadFromStorage
  cases hc : st.userStr with
  | none => rfl
  | some v =>
    by_cases hv : v = ""
    · simp [hv]
    · cases hp : jsonParseUser v <;> simp [hv, hp]

theorem getUserRead_good {mem : Option UserVal} {cell : Option String}
    (hm : mem = none ∨ ∃ u, mem = some (UserVal.profile u))
    (hc : GoodCell cell) :
    ((getUserRead mem (Except.ok cell)).1 = none ∨
      ∃ u, (getUserRead mem (Except.ok cell)).1 = some (UserVal.profile u)) ∧
    ((getUserRead mem (Except.ok cell)).2 = none ∨
      ∃ u, (getUserRead mem (Except.ok cell)).2 = some (UserVal.profile u)) := by
  by_cases h : jsTruthyUser mem = true
  · rcases hm with h0 | ⟨u, h0⟩
    · rw [h0] at h; simp [jsTruthyUser] at h
    · constructor <;> (right; exact ⟨u, by simp [getUserRead, h, h0, jsTruthyUser]⟩)
  · cases hcell : cell with
    | none =>
      simp only [getUserRead, h, if_false, Bool.not_eq_true] at *
      simp [h]
      exact hm
    | some v =>
      by_cases hv : v = ""
      · subst hv
        simp [getUserRead, h]
        exact hm
      · have hc2 : v = "" ∨ ∃ u, jsonParseUser v = some (UserVal.profile u) := by
          rw [hcell] at hc; exact hc
        rcases hc2 with h0 | ⟨u, hu⟩
        · exact absurd h0 hv
        · constructor <;> (right; exact ⟨u, by simp [getUserRead, h, hv, hu]⟩)

theorem svcInv_getUser {s : Svc} (ih : SvcInv s) : SvcInv (getUser s).2 :=
  ⟨ih.acc, (getUserRead_good ih.mem ih.cell).2, ih.cell⟩

theorem isAuthenticated_snd (s : Svc) :
    (isAuthenticated s).2 =
      if jsTruthyStr (getAccessToken s) = true then (getUser s).2 else s := by
  by_cases h : jsTruthyStr (getAccessToken s) = true <;>
    simp [isAuthenticated, h]

theorem reachable_inv {s : Svc} (h : Reachable s) : SvcInv s := by
  induction h with
  | boot =>
    exact ⟨by simp [bootSvc, loadFromStorage], Or.inl rfl, trivial⟩
  | setTok s a r _ ih =>
    refine ⟨?_, ih.mem, ih.cell⟩
    simp only [setTokens]
    by_cases h : jsTruthyStr a = true
    · simp only [if_pos h]
      intro he
      rw [he] at h
      simp [jsTruthyStr] at h
    · simp [h]
  | setUsr s u _ ih =>
    refine ⟨ih.acc, ?_, ?_⟩
    · cases u with
      | none => exact Or.inl rfl
      | some p => exact Or.inr ⟨p, rfl⟩
    · cases u with
      | none => exact trivial
      | some p => exact Or.inr ⟨p, jsonParseUser_stringifyUser p⟩
  | clear s _ ih =>
    exact ⟨by simp [clearAuth], Or.inl rfl, trivial⟩
  | readUser s _ ih => exact svcInv_getUser ih
  | readAuth s _ ih =>
    rw [show (isAuthenticated s).2 =
      if jsTruthyStr (getAccessToken s) = true then (getUser s).2 else s from
      isAuthenticated_snd s]
    by_cases h : jsTruthyStr (getAccessToken s) = true
    · rw [if_pos h]; exact svcInv_getUser ih
    · rw [if_neg h]; exact ih
  | restart s _ ih =>
    refine ⟨?_, ?_, ?_⟩
    · rw [loadFromStorage_store]; exact ih.acc
    · have hc := ih.cell
      unfold loadFromStorage
      cases hcell : s.store.userStr with
      | none => exact Or.inl rfl
      | some v =>
        have hc2 : v = "" ∨ ∃ u, jsonParseUser v = some (UserVal.profile u) := by
          rw [hcell] at hc; exact hc
        by_cases hv : v = ""
        · simp [hv]
        · rcases hc2 with h0 | ⟨u, hu⟩
          · exact absurd h0 hv
          · simp only [if_neg hv, hu]
            exact Or.inr ⟨u, rfl⟩
    · rw [loadFromStorage_store]; exact ih.cell

theorem jsTruthyStr_eq_isSome {o : Option String} (h : o ≠ some "") :
    jsTruthyStr o = o.isSome := by
  cases o with
  | none => rfl
  | some v =>
    have hv : v ≠ "" := fun he => h (by rw [he])
    simp [jsTruthyStr, hv]

theorem getAccessToken_ne_empty {s : Svc} (inv : SvcInv s) :
    getAccessToken s ≠ some "" := by
  unfold getAccessToken jsOrStr
  by_cases h : jsTruthyStr s.memAccess = true
  · rw [if_pos (by exact_mod_cast h)]
    cases hm : s.memAccess with
    | none => rw [hm] at h; simp [jsTruthyStr] at h
    | some v =>
      rw [hm] at h
      intro he
      rw [he] at h
      simp [jsTruthyStr] at h
  · rw [if_neg (by exact_mod_cast h)]
    exact inv.acc

/-- C5: in every reachable session state, `isAuthenticated()` returns
true iff `getAccessToken()` and `getUser()` both return non-absent
values. -/
theorem c5_isAuthenticated_iff (s : Svc) (h : Reachable s) :
    (isAuthenticated s).1 = true ↔
      (getAccessToken s).isSome = true ∧ ((getUser s).1).isSome = true := by
  have inv := reachable_inv h
  have ha := jsTruthyStr_eq_isSome (getAccessToken_ne_empty inv)
  have hu : jsTruthyUser (getUser s).1 = ((getUser s).1).isSome := by
    rcases (getUserRead_good inv.mem inv.cell).1 with h0 | ⟨u, h0⟩ <;>
      · have h1 : (getUser s).1 = (getUserRead s.memUser (Except.ok s.store.userStr)).1 := rfl
        rw [h1, h0]
        simp [jsTruthyUser]
  by_cases ht : jsTruthyStr (getAccessToken s) = true
  · have h1 : (isAuthenticated s).1 = jsTruthyUser (getUser s).1 := by
      simp [isAuthenticated, ht]
    rw [h1, hu, ← ha, ht]
    simp
  · have h1 : (isAuthenticated s).1 = false := by
      simp [isAuthenticated, ht]
    rw [h1, ← ha]
    simp [ht]

/-- C5 witness: the equivalence at a concrete reachable state (after a
login-style `setTokens`/`setUser`), where both sides are true. -/
theorem c5_isAuthenticated_iff_witness :
    ((isAuthenticated (setUser (setTokens bootSvc (some "A1") (some "R1"))
        (some ⟨1, "Jo", "jo@x.co", "patient"⟩))).1 = true ↔
      (getAccessToken (setUser (setTokens bootSvc (some "A1") (some "R1"))
        (some ⟨1, "Jo", "jo@x.co", "patient"⟩))).isSome = true ∧
      ((getUser (setUser (setTokens bootSvc (some "A1") (some "R1"))
        (some ⟨1, "Jo", "jo@x.co", "patient"⟩))).1).isSome = true) :=
  c5_isAuthenticated_iff _
    (Reachable.setUsr _ _ (Reachable.setTok _ _ _ Reachable.boot))

/-- C7 (amended): the refresh exchange.  The request, when issued, is a
`POST /auth/refresh` carrying the refresh token as a bearer credential,
and it is issued exactly when a (truthy) refresh token is present.  The
exchange succeeds exactly when the response is 2xx with a JSON body whose
`status` field is `"success"` and whose `data` field is present; in that
case the `access_token`/`refresh_token` fields of `data` (absent fields
removing the stored entries) are committed, the profile is committed if
returned, and the (possibly absent) `access_token` is returned.  A 2xx
JSON body failing that check, and any non-2xx response, clears the
session and throws; a 2xx body that is not JSON throws without the
exchange itself clearing; a missing refresh token clears and throws
without issuing any request.  (The source checks only
`data?.status === "success" && data?.data`, not the presence of the
individual fields the spec's shape lists.) -/
theorem c7_refresh_exchange_contract :
    (∀ (s : Svc) (env : RefreshHttp) (req : RefreshRequest),
      (refreshAccessToken s env).2.2 = some req →
      req = { method := "POST", path := "/auth/refresh",
              authHeader := some ("Bearer " ++ jsTemplateStr (getRefreshToken s)) }) ∧
    (∀ (s : Svc) (env : RefreshHttp),
      ((refreshAccessToken s env).2.2).isSome = jsTruthyStr (getRefreshToken s)) ∧
    (∀ (s : Svc) (env : RefreshHttp),
      (∃ v, (refreshAccessToken s env).1 = Except.ok v) ↔
        (jsTruthyStr (getRefreshToken s) = true ∧
          ∃ b d, env = RefreshHttp.resp true (RespBody.json b) ∧
            b.status = some "success" ∧ b.data = some d)) ∧
    (∀ (s : Svc) (b : RBody) (d : RData),
      jsTruthyStr (getRefreshToken s) = true →
      b.status = some "success" → b.data = some d →
      (refreshAccessToken s (RefreshHttp.resp true (RespBody.json b))).1 =
        Except.ok d.access_token ∧
      (refreshAccessToken s (RefreshHttp.resp true (RespBody.json b))).2.1 =
        (match d.user with
          | some u => setUser (setTokens s d.access_token d.refresh_token) (some u)
          | none => setTokens s d.access_token d.refresh_token)) ∧
    (∀ (s : Svc) (env : RefreshHttp),
      jsTruthyStr (getRefreshToken s) = true →
      ((refreshAccessToken s env).1 = Except.error RefreshErr.refreshRejected ∨
       (refreshAccessToken s env).1 = Except.error RefreshErr.invalidResponse) →
      (refreshAccessToken s env).2.1 = clearAuth s) ∧
    (∀ (s : Svc) (env : RefreshHttp),
      jsTruthyStr (getRefreshToken s) = true →
      ((refreshAccessToken s env).1 = Except.error RefreshErr.jsonParseErr ∨
       (refreshAccessToken s env).1 = Except.error RefreshErr.network) →
      (refreshAccessToken s env).2.1 = s) ∧
    (∀ (s : Svc) (env : RefreshHttp),
      jsTruthyStr (getRefreshToken s) = false →
      (refreshAccessToken s env).1 = Except.error RefreshErr.noRefreshToken ∧
      (refreshAccessToken s env).2.1 = clearAuth s ∧
      (refreshAccessToken s env).2.2 = none) := by
  refine ⟨?_, ?_, ?_, ?_, ?_, ?_, ?_⟩
  · intro s env req h
    by_cases ht : jsTruthyStr (getRefreshToken s) = true
    · simp only [refreshAccessToken, ht, if_true] at h
      have h2 := Option.some.injEq _ req ▸ h
      simp only [Option.some.injEq] at h
      rw [← h]
      rfl
    · simp [refreshAccessToken, ht] at h
  · intro s env
    by_cases ht : jsTruthyStr (getRefreshToken s) = true <;>
      simp [refreshAccessToken, ht]
  · intro s env
    constructor
    · rintro ⟨v, hv⟩
      by_cases ht : jsTruthyStr (getRefreshToken s) = true
      · refine ⟨ht, ?_⟩
        cases env with
        | netErr => simp [refreshAccessToken, processRefreshResp, ht] at hv
        | resp ok body =>
          cases ok with
          | false => simp [refreshAccessToken, processRefreshResp, ht] at hv
          | true =>
            cases body with
            | notJson => simp [refreshAccessToken, processRefreshResp, ht] at hv
            | json b =>
              by_cases hs : b.status = some "success"
              · cases hd : b.data with
                | none =>
                  simp [refreshAccessToken, processRefreshResp, ht, hs, hd] at hv
                | some d => exact ⟨b, d, rfl, hs, hd⟩
              · simp [refreshAccessToken, processRefreshResp, ht, hs] at hv
      · simp [refreshAccessToken, ht] at hv
    · rintro ⟨ht, b, d, rfl, hs, hd⟩
      exact ⟨d.access_token,
        by simp [refreshAccessToken, processRefreshResp, ht, hs, hd]⟩
  · intro s b d ht hs hd
    constructor
    · simp [refreshAccessToken, processRefreshResp, ht, hs, hd]
    · simp [refreshAccessToken, processRefreshResp, ht, hs, hd]
  · intro s env ht herr
    cases env with
    | netErr =>
      simp [refreshAccessToken, processRefreshResp, ht] at herr
    | resp ok body =>
      cases ok with
      | false => simp [refreshAccessToken, processRefreshResp, ht]
      | true =>
        cases body with
        | notJson => simp [refreshAccessToken, processRefreshResp, ht] at herr
        | json b =>
          by_cases hs : b.status = some "success"
          · cases hd : b.data with
            | none => simp [refreshAccessToken, processRefreshResp, ht, hs, hd]
            | some d =>
              simp [refreshAccessToken, processRefreshResp, ht, hs, hd] at herr
          · simp [refreshAccessToken, processRefreshResp, ht, hs]
  · intro s env ht herr
    cases env with
    | netErr => simp [refreshAccessToken, processRefreshResp, ht]
    | resp ok body =>
      cases ok with
      | false => simp [refreshAccessToken, processRefreshResp, ht] at herr
      | true =>
        cases body with
        | notJson => simp [refreshAccessToken, processRefreshResp, ht]
        | json b =>
          by_cases hs : b.status = some "success"
          · cases hd : b.data with
            | none =>
              simp [refreshAccessToken, processRefreshResp, ht, hs, hd] at herr
            | some d =>
              simp [refreshAccessToken, processRefreshResp, ht, hs, hd] at herr
          · simp [refreshAccessToken, processRefreshResp, ht, hs] at herr
  · intro s env ht
    simp [refreshAccessToken, ht]

/-- C7 witness: a successful exchange at a concrete state and response,
through the amended characterization. -/
theorem c7_refresh_exchange_contract_witness :
    (refreshAccessToken (setTokens bootSvc (some "A1") (some "R1"))
      (RefreshHttp.resp true (RespBody.json
        { status := some "success",
          data := some { access_token := some "A2", refresh_token := some "R2",
                         user := some ⟨1, "Jo", "jo@x.co", "patient"⟩ } }))).1 =
      Except.ok (some "A2") :=
  (c7_refresh_exchange_contract.2.2.2.1 (setTokens bootSvc (some "A1") (some "R1"))
    { status := some "success",
      data := some { access_token := some "A2", refresh_token := some "R2",
                     user := some ⟨1, "Jo", "jo@x.co", "patient"⟩ } }
    { access_token := some "A2", refresh_token := some "R2",
      user := some ⟨1, "Jo", "jo@x.co", "patient"⟩ }
    (by decide) rfl rfl).1

/-- C7 counterexample to the claim as stated: a 2xx response whose body
is `status: "success"` with `data: \x7b\x7d` (none of the expected
`access_token`/`refresh_token`/`user` fields) is NOT treated as a
refresh failure: no error is thrown (the call returns the absent
`access_token`), and the session is not cleared via `clear()` — the
stored user profile survives. -/
theorem c7_counterexample :
    (refreshAccessToken
      (setUser (setTokens bootSvc (some "A1") (some "R1"))
        (some ⟨1, "Jo", "jo@x.co", "patient"⟩))
      (RefreshHttp.resp true (RespBody.json
        { status := some "success",
          data := some { access_token := none, refresh_token := none,
                         user := none } }))).1 = Except.ok none ∧
    (refreshAccessToken
      (setUser (setTokens bootSvc (some "A1") (some "R1"))
        (some ⟨1, "Jo", "jo@x.co", "patient"⟩))
      (RefreshHttp.resp true (RespBody.json
        { status := some "success",
          data := some { access_token := none, refresh_token := none,
                         user := none } }))).2.1.memUser =
      some (UserVal.profile ⟨1, "Jo", "jo@x.co", "patient"⟩) :=
  ⟨rfl, rfl⟩

/-- Number of API attempts (first or retry) recorded for caller `i`. -/
def countApiFor (i : Nat) (tr : List NetReq) : Nat :=
  tr.countP (fun r => match r with
    | NetReq.apiCall j _ _ => j == i
    | _ => false)

/-- Number of refresh-endpoint calls recorded. -/
def countRefreshCalls (tr : List NetReq) : Nat :=
  tr.countP (fun r => match r with
    | NetReq.refreshCall _ => true
    | _ => false)

/-- Number of retry (attempt-2) API calls recorded for caller `i`. -/
def countApi2For (i : Nat) (tr : List NetReq) : Nat :=
  tr.countP (fun r => match r with
    | NetReq.apiCall j 2 _ => j == i
    | _ => false)

/-- Remaining network attempts a caller in this control state can still
issue for its own request. -/
def remAtt : TaskSt → Nat
  | TaskSt.start => 2
  | TaskSt.awaitFirst _ => 1
  | TaskSt.queued _ => 1
  | TaskSt.leader _ => 1
  | TaskSt.resolvedQ _ _ => 1
  | TaskSt.rejectedQ _ _ => 1
  | TaskSt.awaitRetry _ => 0
  | TaskSt.done _ => 0
  | TaskSt.failed _ => 0

/-- The per-caller attempt bound: attempts already issued plus attempts
still possible never exceed two. -/
def AttInv (g : GState) : Prop :=
  ∀ i, countApiFor i g.trace + remAtt (g.tasks.getD i (TaskSt.done 0)) ≤ 2

theorem getElem?_some_lt {α : Type} {l : List α} {i : Nat} {x : α}
    (h : l[i]? = some x) : i < l.length := by
  by_contra hc
  rw [List.getElem?_eq_none (by omega)] at h
  cases h

theorem getD_of_getElem? {α : Type} {l : List α} {i : Nat} {x : α} (d : α)
    (h : l[i]? = some x) : l.getD i d = x := by
  rw [List.getD_eq_getElem?_getD, h]
  rfl

theorem getD_set_self {α : Type} {l : List α} {i : Nat} (a d : α)
    (h : i < l.length) : (l.set i a).getD i d = a := by
  rw [List.getD_eq_getElem?_getD, List.getElem?_set_self h]
  rfl

theorem getD_set_ne {α : Type} {l : List α} {i j : Nat} (a d : α)
    (h : i ≠ j) : (l.set i a).getD j d = l.getD j d := by
  rw [List.getD_eq_getElem?_getD, List.getElem?_set_ne h,
    ← List.getD_eq_getElem?_getD]

theorem countApiFor_append_api (i j k : Nat) (a : Option String)
    (tr : List NetReq) :
    countApiFor i (tr ++ [NetReq.apiCall j k a]) =
      countApiFor i tr + (if j = i then 1 else 0) := by
  simp only [countApiFor, List.countP_append, List.countP_cons, List.countP_nil]
  by_cases h : j = i <;> simp [h]

theorem countApiFor_append_refresh (i : Nat) (a : Option String)
    (tr : List NetReq) :
    countApiFor i (tr ++ [NetReq.refreshCall a]) = countApiFor i tr := by
  simp [countApiFor, List.countP_append, List.countP_cons, List.countP_nil]

theorem remAtt_set_same (ts : List TaskSt) (j : Nat) (t t2 : TaskSt)
    (hj : ts[j]? = some t) (hrem : remAtt t2 = remAtt t) (i : Nat) :
    remAtt ((ts.set j t2).getD i (TaskSt.done 0)) =
      remAtt (ts.getD i (TaskSt.done 0)) := by
  by_cases hij : i = j
  · subst hij
    rw [getD_set_self _ _ (getElem?_some_lt hj), getD_of_getElem? _ hj, hrem]
  · rw [getD_set_ne _ _ (fun h => hij h.symm)]

theorem resolveAll_remAtt (q : List Nat) : ∀ (ts : List TaskSt)
    (a : Option String) (i : Nat),
    remAtt ((resolveAll ts q a).getD i (TaskSt.done 0)) =
      remAtt (ts.getD i (TaskSt.done 0)) := by
  induction q with
  | nil => intro ts a i; rfl
  | cons j qs ih =>
    intro ts a i
    show remAtt ((resolveAll (match ts[j]? with
      | some (TaskSt.queued h) => ts.set j (TaskSt.resolvedQ h a)
      | _ => ts) qs a).getD i (TaskSt.done 0)) = _
    rw [ih]
    cases hj : ts[j]? with
    | none => rfl
    | some t =>
      cases t with
      | queued hq =>
        exact remAtt_set_same ts j (TaskSt.queued hq) (TaskSt.resolvedQ hq a) hj rfl i
      | _ => rfl

theorem rejectAll_remAtt (q : List Nat) : ∀ (ts : List TaskSt)
    (e : RefreshErr) (i : Nat),
    remAtt ((rejectAll ts q e).getD i (TaskSt.done 0)) =
      remAtt (ts.getD i (TaskSt.done 0)) := by
  induction q with
  | nil => intro ts e i; rfl
  | cons j qs ih =>
    intro ts e i
    show remAtt ((rejectAll (match ts[j]? with
      | some (TaskSt.queued h) => ts.set j (TaskSt.rejectedQ h e)
      | _ => ts) qs e).getD i (TaskSt.done 0)) = _
    rw [ih]
    cases hj : ts[j]? with
    | none => rfl
    | some t =>
      cases t with
      | queued hq =>
        exact remAtt_set_same ts j (TaskSt.queued hq) (TaskSt.rejectedQ hq e) hj rfl i
      | _ => rfl

theorem doStart_eq {g : GState} {i : Nat}
    (h : g.tasks[i]? = some TaskSt.start) :
    doStart g i =
      { g with tasks := g.tasks.set i (TaskSt.awaitFirst (startAuth g.svc))
               trace := g.trace ++ [NetReq.apiCall i 1 (startAuth g.svc)] } := by
  unfold doStart
  rw [h]

theorem doStart_stuck {g : GState} {i : Nat} {t : TaskSt}
    (h : g.tasks[i]? = some t) (hne : t ≠ TaskSt.start) :
    doStart g i = g := by
  unfold doStart
  rw [h]
  cases t <;> first | rfl | exact absurd rfl hne

theorem doStart_none {g : GState} {i : Nat}
    (h : g.tasks[i]? = none) : doStart g i = g := by
  unfold doStart
  rw [h]

theorem doFirstResp_eq_done {g : GState} {i st : Nat} {a : Option String}
    (h : g.tasks[i]? = some (TaskSt.awaitFirst a)) (hst : st ≠ 401) :
    doFirstResp g i st = { g with tasks := g.tasks.set i (TaskSt.done st) } := by
  unfold doFirstResp
  rw [h]
  simp [hst]

theorem doFirstResp_eq_queue {g : GState} {i : Nat} {a : Option String}
    (h : g.tasks[i]? = some (TaskSt.awaitFirst a))
    (hflag : g.refreshInProgress = true) :
    doFirstResp g i 401 =
      { g with tasks := g.tasks.set i (TaskSt.queued a)
               refreshQueue := g.refreshQueue ++ [i] } := by
  unfold doFirstResp
  rw [h]
  simp [hflag]

theorem doFirstResp_eq_leader {g : GState} {i : Nat} {a : Option String}
    (h : g.tasks[i]? = some (TaskSt.awaitFirst a))
    (hflag : g.refreshInProgress = false)
    (ht : jsTruthyStr (getRefreshToken g.svc) = true) :
    doFirstResp g i 401 =
      { g with refreshInProgress := true
               tasks := g.tasks.set i (TaskSt.leader a)
               trace := g.trace ++
                 [NetReq.refreshCall (some (bearerOf (getRefreshToken g.svc)))] } := by
  unfold doFirstResp
  rw [h]
  simp [hflag, ht]

theorem doFirstResp_eq_notoken {g : GState} {i : Nat} {a : Option String}
    (h : g.tasks[i]? = some (TaskSt.awaitFirst a))
    (hflag : g.refreshInProgress = false)
    (ht : jsTruthyStr (getRefreshToken g.svc) = false) :
    doFirstResp g i 401 =
      { svc := clearAuth g.svc
        refreshInProgress := false
        refreshQueue := []
        tasks := (rejectAll g.tasks g.refreshQueue RefreshErr.noRefreshToken).set i
          (TaskSt.failed RefreshErr.noRefreshToken)
        trace := g.trace } := by
  unfold doFirstResp
  rw [h]
  simp [hflag, ht]

theorem doFirstResp_stuck {g : GState} {i st : Nat} {t : TaskSt}
    (h : g.tasks[i]? = some t) (hne : ∀ a, t ≠ TaskSt.awaitFirst a) :
    doFirstResp g i st = g := by
  unfold doFirstResp
  rw [h]
  cases t <;> first | rfl | exact absurd rfl (hne _)

theorem doFirstResp_none {g : GState} {i st : Nat}
    (h : g.tasks[i]? = none) : doFirstResp g i st = g := by
  unfold doFirstResp
  rw [h]

theorem doFirstFail_eq {g : GState} {i : Nat} {a : Option String}
    (h : g.tasks[i]? = some (TaskSt.awaitFirst a)) :
    doFirstFail g i =
      { g with tasks := g.tasks.set i (TaskSt.failed RefreshErr.network) } := by
  unfold doFirstFail
  rw [h]

theorem doFirstFail_stuck {g : GState} {i : Nat} {t : TaskSt}
    (h : g.tasks[i]? = some t) (hne : ∀ a, t ≠ TaskSt.awaitFirst a) :
    doFirstFail g i = g := by
  unfold doFirstFail
  rw [h]
  cases t <;> first | rfl | exact absurd rfl (hne _)

theorem doFirstFail_none {g : GState} {i : Nat}
    (h : g.tasks[i]? = none) : doFirstFail g i = g := by
  unfold doFirstFail
  rw [h]

theorem doRefreshResp_eq_ok {g : GState} {i : Nat} {a newAccess : Option String}
    {env : RefreshHttp}
    (h : g.tasks[i]? = some (TaskSt.leader a))
    (hok : (processRefreshResp g.svc env).1 = Except.ok newAccess) :
    doRefreshResp g i env =
      { svc := (processRefreshResp g.svc env).2
        refreshInProgress := false
        refreshQueue := []
        tasks := (resolveAll g.tasks g.refreshQueue newAccess).set i
          (TaskSt.awaitRetry (some (bearerOf newAccess)))
        trace := g.trace ++ [NetReq.apiCall i 2 (some (bearerOf newAccess))] } := by
  unfold doRefreshResp
  rw [h]
  dsimp only
  rw [hok]

theorem doRefreshResp_eq_err {g : GState} {i : Nat} {a : Option String}
    {e : RefreshErr} {env : RefreshHttp}
    (h : g.tasks[i]? = some (TaskSt.leader a))
    (herr : (processRefreshResp g.svc env).1 = Except.error e) :
    doRefreshResp g i env =
      { svc := clearAuth (processRefreshResp g.svc env).2
        refreshInProgress := false
        refreshQueue := []
        tasks := (rejectAll g.tasks g.refreshQueue e).set i (TaskSt.failed e)
        trace := g.trace } := by
  unfold doRefreshResp
  rw [h]
  dsimp only
  rw [herr]

theorem doRefreshResp_stuck {g : GState} {i : Nat} {t : TaskSt}
    {env : RefreshHttp}
    (h : g.tasks[i]? = some t) (hne : ∀ a, t ≠ TaskSt.leader a) :
    doRefreshResp g i env = g := by
  unfold doRefreshResp
  rw [h]
  cases t <;> first | rfl | exact absurd rfl (hne _)

theorem doRefreshResp_none {g : GState} {i : Nat} {env : RefreshHttp}
    (h : g.tasks[i]? = none) : doRefreshResp g i env = g := by
  unfold doRefreshResp
  rw [h]

theorem doResume_eq_resolved {g : GState} {i : Nat} {a newAccess : Option String}
    (h : g.tasks[i]? = some (TaskSt.resolvedQ a newAccess)) :
    doResume g i =
      { g with tasks := g.tasks.set i (TaskSt.awaitRetry (some (bearerOf newAccess)))
               trace := g.trace ++ [NetReq.apiCall i 2 (some (bearerOf newAccess))] } := by
  unfold doResume
  rw [h]

theorem doResume_eq_rejected {g : GState} {i : Nat} {a : Option String}
    {e : RefreshErr}
    (h : g.tasks[i]? = some (TaskSt.rejectedQ a e)) :
    doResume g i =
      { g with svc := clearAuth g.svc
               tasks := g.tasks.set i (TaskSt.failed e) } := by
  unfold doResume
  rw [h]

theorem doResume_stuck {g : GState} {i : Nat} {t : TaskSt}
    (h : g.tasks[i]? = some t)
    (hne1 : ∀ a x, t ≠ TaskSt.resolvedQ a x)
    (hne2 : ∀ a e, t ≠ TaskSt.rejectedQ a e) :
    doResume g i = g := by
  unfold doResume
  rw [h]
  cases t <;> first | rfl | exact absurd rfl (hne1 _ _) | exact absurd rfl (hne2 _ _)

theorem doResume_none {g : GState} {i : Nat}
    (h : g.tasks[i]? = none) : doResume g i = g := by
  unfold doResume
  rw [h]

theorem doRetryResp_eq {g : GState} {i st : Nat} {a : Option String}
    (h : g.tasks[i]? = some (TaskSt.awaitRetry a)) :
    doRetryResp g i st = { g with tasks := g.tasks.set i (TaskSt.done st) } := by
  unfold doRetryResp
  rw [h]

theorem doRetryResp_stuck {g : GState} {i st : Nat} {t : TaskSt}
    (h : g.tasks[i]? = some t) (hne : ∀ a, t ≠ TaskSt.awaitRetry a) :
    doRetryResp g i st = g := by
  unfold doRetryResp
  rw [h]
  cases t <;> first | rfl | exact absurd rfl (hne _)

theorem doRetryResp_none {g : GState} {i st : Nat}
    (h : g.tasks[i]? = none) : doRetryResp g i st = g := by
  unfold doRetryResp
  rw [h]

theorem doRetryFail_eq {g : GState} {i : Nat} {a : Option String}
    (h : g.tasks[i]? = some (TaskSt.awaitRetry a)) :
    doRetryFail g i =
      { g with svc := clearAuth g.svc
               tasks := g.tasks.set i (TaskSt.failed RefreshErr.network) } := by
  unfold doRetryFail
  rw [h]

theorem doRetryFail_stuck {g : GState} {i : Nat} {t : TaskSt}
    (h : g.tasks[i]? = some t) (hne : ∀ a, t ≠ TaskSt.awaitRetry a) :
    doRetryFail g i = g := by
  unfold doRetryFail
  rw [h]
  cases t <;> first | rfl | exact absurd rfl (hne _)

theorem doRetryFail_none {g : GState} {i : Nat}
    (h : g.tasks[i]? = none) : doRetryFail g i = g := by
  unfold doRetryFail
  rw [h]

theorem rejectAll_length (q : List Nat) : ∀ (ts : List TaskSt) (e : RefreshErr),
    (rejectAll ts q e).length = ts.length := by
  induction q with
  | nil => intro ts e; rfl
  | cons j qs ih =>
    intro ts e
    show (rejectAll (match ts[j]? with
      | some (TaskSt.queued h) => ts.set j (TaskSt.rejectedQ h e)
      | _ => ts) qs e).length = _
    rw [ih]
    cases hj : ts[j]? with
    | none => rfl
    | some t => cases t <;> simp

theorem resolveAll_length (q : List Nat) : ∀ (ts : List TaskSt) (a : Option String),
    (resolveAll ts q a).length = ts.length := by
  induction q with
  | nil => intro ts a; rfl
  | cons j qs ih =>
    intro ts a
    show (resolveAll (match ts[j]? with
      | some (TaskSt.queued h) => ts.set j (TaskSt.resolvedQ h a)
      | _ => ts) qs a).length = _
    rw [ih]
    cases hj : ts[j]? with
    | none => rfl
    | some t => cases t <;> simp

theorem attInv_set_append (g : GState) (i : Nat) (t t2 : TaskSt) (k : Nat)
    (a : Option String) (h : AttInv g) (ht : g.tasks[i]? = some t)
    (hrem : remAtt t2 + 1 ≤ remAtt t) :
    ∀ i2, countApiFor i2 (g.trace ++ [NetReq.apiCall i k a]) +
      remAtt ((g.tasks.set i t2).getD i2 (TaskSt.done 0)) ≤ 2 := by
  intro i2
  rw [countApiFor_append_api]
  by_cases hi : i = i2
  · subst hi
    rw [if_pos rfl, getD_set_self _ _ (getElem?_some_lt ht)]
    have h2 := h i
    rw [getD_of_getElem? _ ht] at h2
    omega
  · rw [if_neg hi, getD_set_ne _ _ hi]
    have h2 := h i2
    omega

theorem attInv_set_only (g : GState) (i : Nat) (t t2 : TaskSt)
    (h : AttInv g) (ht : g.tasks[i]? = some t)
    (hrem : remAtt t2 ≤ remAtt t) :
    ∀ i2, countApiFor i2 g.trace +
      remAtt ((g.tasks.set i t2).getD i2 (TaskSt.done 0)) ≤ 2 := by
  intro i2
  by_cases hi : i = i2
  · subst hi
    rw [getD_set_self _ _ (getElem?_some_lt ht)]
    have h2 := h i
    rw [getD_of_getElem? _ ht] at h2
    omega
  · rw [getD_set_ne _ _ hi]
    exact h i2

theorem attInv_reject_set (g : GState) (i : Nat) (t t2 : TaskSt)
    (e : RefreshErr) (h : AttInv g) (ht : g.tasks[i]? = some t)
    (hrem : remAtt t2 ≤ remAtt t) :
    ∀ i2, countApiFor i2 g.trace +
      remAtt (((rejectAll g.tasks g.refreshQueue e).set i t2).getD i2
        (TaskSt.done 0)) ≤ 2 := by
  intro i2
  by_cases hi : i = i2
  · subst hi
    rw [getD_set_self _ _ (by
      rw [rejectAll_length]
      exact getElem?_some_lt ht)]
    have h2 := h i
    rw [getD_of_getElem? _ ht] at h2
    omega
  · rw [getD_set_ne _ _ hi, rejectAll_remAtt]
    exact h i2

theorem attInv_resolve_set_append (g : GState) (i : Nat) (t t2 : TaskSt)
    (k : Nat) (a newAccess : Option String) (h : AttInv g)
    (ht : g.tasks[i]? = some t) (hrem : remAtt t2 + 1 ≤ remAtt t) :
    ∀ i2, countApiFor i2 (g.trace ++ [NetReq.apiCall i k a]) +
      remAtt (((resolveAll g.tasks g.refreshQueue newAccess).set i t2).getD i2
        (TaskSt.done 0)) ≤ 2 := by
  intro i2
  rw [countApiFor_append_api]
  by_cases hi : i = i2
  · subst hi
    rw [if_pos rfl, getD_set_self _ _ (by
      rw [resolveAll_length]
      exact getElem?_some_lt ht)]
    have h2 := h i
    rw [getD_of_getElem? _ ht] at h2
    omega
  · rw [if_neg hi, getD_set_ne _ _ hi, resolveAll_remAtt]
    have h2 := h i2
    omega

theorem attInv_step (g : GState) (e : Ev) (h : AttInv g) : AttInv (step g e) := by
  cases e with
  | start i =>
    show AttInv (doStart g i)
    cases ht : g.tasks[i]? with
    | none => rw [doStart_none ht]; exact h
    | some t =>
      cases t with
      | start =>
        rw [doStart_eq ht]
        intro i2
        have := attInv_set_append g i TaskSt.start (TaskSt.awaitFirst (startAuth g.svc))
          1 (startAuth g.svc) h ht (by simp [remAtt]) i2
        exact this
      | awaitFirst a => rw [doStart_stuck ht (by simp)]; exact h
      | queued a => rw [doStart_stuck ht (by simp)]; exact h
      | leader a => rw [doStart_stuck ht (by simp)]; exact h
      | resolvedQ a x => rw [doStart_stuck ht (by simp)]; exact h
      | rejectedQ a e2 => rw [doStart_stuck ht (by simp)]; exact h
      | awaitRetry a => rw [doStart_stuck ht (by simp)]; exact h
      | done st => rw [doStart_stuck ht (by simp)]; exact h
      | failed e2 => rw [doStart_stuck ht (by simp)]; exact h
  | firstResp i st =>
    show AttInv (doFirstResp g i st)
    cases ht : g.tasks[i]? with
    | none => rw [doFirstResp_none ht]; exact h
    | some t =>
      cases t with
      | awaitFirst a =>
        by_cases hst : st = 401
        · subst hst
          by_cases hflag : g.refreshInProgress = true
          · rw [doFirstResp_eq_queue ht hflag]
            exact attInv_set_only g i _ (TaskSt.queued a) h ht (by simp [remAtt])
          · have hflag2 : g.refreshInProgress = false := by
              cases hb : g.refreshInProgress
              · rfl
              · exact absurd hb hflag
            by_cases htok : jsTruthyStr (getRefreshToken g.svc) = true
            · rw [doFirstResp_eq_leader ht hflag2 htok]
              intro i2
              rw [countApiFor_append_refresh]
              exact attInv_set_only g i _ (TaskSt.leader a) h ht
                (by simp [remAtt]) i2
            · have htok2 : jsTruthyStr (getRefreshToken g.svc) = false := by
                cases hb : jsTruthyStr (getRefreshToken g.svc)
                · rfl
                · exact absurd hb htok
              rw [doFirstResp_eq_notoken ht hflag2 htok2]
              exact attInv_reject_set g i _ (TaskSt.failed RefreshErr.noRefreshToken)
                RefreshErr.noRefreshToken h ht (by simp [remAtt])
        · rw [doFirstResp_eq_done ht hst]
          exact attInv_set_only g i _ (TaskSt.done st) h ht (by simp [remAtt])
      | start => rw [doFirstResp_stuck ht (by simp)]; exact h
      | queued a => rw [doFirstResp_stuck ht (by simp)]; exact h
      | leader a => rw [doFirstResp_stuck ht (by simp)]; exact h
      | resolvedQ a x => rw [doFirstResp_stuck ht (by simp)]; exact h
      | rejectedQ a e2 => rw [doFirstResp_stuck ht (by simp)]; exact h
      | awaitRetry a => rw [doFirstResp_stuck ht (by simp)]; exact h
      | done st2 => rw [doFirstResp_stuck ht (by simp)]; exact h
      | failed e2 => rw [doFirstResp_stuck ht (by simp)]; exact h
  | firstFail i =>
    show AttInv (doFirstFail g i)
    cases ht : g.tasks[i]? with
    | none => rw [doFirstFail_none ht]; exact h
    | some t =>
      cases t with
      | awaitFirst a =>
        rw [doFirstFail_eq ht]
        exact attInv_set_only g i _ (TaskSt.failed RefreshErr.network) h ht
          (by simp [remAtt])
      | start => rw [doFirstFail_stuck ht (by simp)]; exact h
      | queued a => rw [doFirstFail_stuck ht (by simp)]; exact h
      | leader a => rw [doFirstFail_stuck ht (by simp)]; exact h
      | resolvedQ a x => rw [doFirstFail_stuck ht (by simp)]; exact h
      | rejectedQ a e2 => rw [doFirstFail_stuck ht (by simp)]; exact h
      | awaitRetry a => rw [doFirstFail_stuck ht (by simp)]; exact h
      | done st => rw [doFirstFail_stuck ht (by simp)]; exact h
      | failed e2 => rw [doFirstFail_stuck ht (by simp)]; exact h
  | refreshResp i env =>
    show AttInv (doRefreshResp g i env)
    cases ht : g.tasks[i]? with
    | none => rw [doRefreshResp_none ht]; exact h
    | some t =>
      cases t with
      | leader a =>
        cases hpr : (processRefreshResp g.svc env).1 with
        | ok newAccess =>
          rw [doRefreshResp_eq_ok ht hpr]
          exact attInv_resolve_set_append g i _ _ 2 _ newAccess h ht
            (by simp [remAtt])
        | error e2 =>
          rw [doRefreshResp_eq_err ht hpr]
          exact attInv_reject_set g i _ (TaskSt.failed e2) e2 h ht
            (by simp [remAtt])
      | start => rw [doRefreshResp_stuck ht (by simp)]; exact h
      | awaitFirst a => rw [doRefreshResp_stuck ht (by simp)]; exact h
      | queued a => rw [doRefreshResp_stuck ht (by simp)]; exact h
      | resolvedQ a x => rw [doRefreshResp_stuck ht (by simp)]; exact h
      | rejectedQ a e2 => rw [doRefreshResp_stuck ht (by simp)]; exact h
      | awaitRetry a => rw [doRefreshResp_stuck ht (by simp)]; exact h
      | done st => rw [doRefreshResp_stuck ht (by simp)]; exact h
      | failed e2 => rw [doRefreshResp_stuck ht (by simp)]; exact h
  | resume i =>
    show AttInv (doResume g i)
    cases ht : g.tasks[i]? with
    | none => rw [doResume_none ht]; exact h
    | some t =>
      cases t with
      | resolvedQ a newAccess =>
        rw [doResume_eq_resolved ht]
        exact attInv_set_append g i _ _ 2 _ h ht (by simp [remAtt])
      | rejectedQ a e2 =>
        rw [doResume_eq_rejected ht]
        exact attInv_set_only g i _ (TaskSt.failed e2) h ht (by simp [remAtt])
      | start => rw [doResume_stuck ht (by simp) (by simp)]; exact h
      | awaitFirst a => rw [doResume_stuck ht (by simp) (by simp)]; exact h
      | queued a => rw [doResume_stuck ht (by simp) (by simp)]; exact h
      | leader a => rw [doResume_stuck ht (by simp) (by simp)]; exact h
      | awaitRetry a => rw [doResume_stuck ht (by simp) (by simp)]; exact h
      | done st => rw [doResume_stuck ht (by simp) (by simp)]; exact h
      | failed e2 => rw [doResume_stuck ht (by simp) (by simp)]; exact h
  | retryResp i st =>
    show AttInv (doRetryResp g i st)
    cases ht : g.tasks[i]? with
    | none => rw [doRetryResp_none ht]; exact h
    | some t =>
      cases t with
      | awaitRetry a =>
        rw [doRetryResp_eq ht]
        exact attInv_set_only g i _ (TaskSt.done st) h ht (by simp [remAtt])
      | start => rw [doRetryResp_stuck ht (by simp)]; exact h
      | awaitFirst a => rw [doRetryResp_stuck ht (by simp)]; exact h
      | queued a => rw [doRetryResp_stuck ht (by simp)]; exact h
      | leader a => rw [doRetryResp_stuck ht (by simp)]; exact h
      | resolvedQ a x => rw [doRetryResp_stuck ht (by simp)]; exact h
      | rejectedQ a e2 => rw [doRetryResp_stuck ht (by simp)]; exact h
      | done st2 => rw [doRetryResp_stuck ht (by simp)]; exact h
      | failed e2 => rw [doRetryResp_stuck ht (by simp)]; exact h
  | retryFail i =>
    show AttInv (doRetryFail g i)
    cases ht : g.tasks[i]? with
    | none => rw [doRetryFail_none ht]; exact h
    | some t =>
      cases t with
      | awaitRetry a =>
        rw [doRetryFail_eq ht]
        exact attInv_set_only g i _ (TaskSt.failed RefreshErr.network) h ht
          (by simp [remAtt])
      | start => rw [doRetryFail_stuck ht (by simp)]; exact h
      | awaitFirst a => rw [doRetryFail_stuck ht (by simp)]; exact h
      | queued a => rw [doRetryFail_stuck ht (by simp)]; exact h
      | leader a => rw [doRetryFail_stuck ht (by simp)]; exact h
      | resolvedQ a x => rw [doRetryFail_stuck ht (by simp)]; exact h
      | rejectedQ a e2 => rw [doRetryFail_stuck ht (by simp)]; exact h
      | done st2 => rw [doRetryFail_stuck ht (by simp)]; exact h
      | failed e2 => rw [doRetryFail_stuck ht (by simp)]; exact h

theorem attInv_run (evs : List Ev) : ∀ (g : GState), AttInv g →
    AttInv (run g evs) := by
  induction evs with
  | nil => intro g h; exact h
  | cons e es ih =>
    intro g h
    show AttInv (run (step g e) es)
    exact ih _ (attInv_step g e h)

theorem attInv_initG (s : Svc) (n : Nat) : AttInv (initG s n) := by
  intro i
  have hc : countApiFor i (initG s n).trace = 0 := rfl
  rw [hc, List.getD_eq_getElem?_getD]
  show 0 + remAtt (((List.replicate n TaskSt.start)[i]?).getD (TaskSt.done 0)) ≤ 2
  rw [List.getElem?_replicate]
  by_cases hi : i < n <;> simp [hi, remAtt]

/-- C3: the retry discipline of `authenticatedFetch`.  (1) In every run
of the event system from an initial state, at most two network attempts
of any caller's original request are ever issued.  (2) A leader whose
refresh succeeds issues exactly one retry, with the new token attached
(`Bearer` of the returned access token); likewise a resolved waiter on
resumption.  (3) A 401 on the retried request is returned to the caller
as-is: the caller finishes with that response, and nothing else — no
request, no refresh, no state change — happens. -/
theorem c3_retry_once_bound :
    (∀ (s : Svc) (n : Nat) (evs : List Ev) (i : Nat),
      countApiFor i (run (initG s n) evs).trace ≤ 2) ∧
    (∀ (g : GState) (i : Nat) (a newAccess : Option String) (env : RefreshHttp),
      g.tasks[i]? = some (TaskSt.leader a) →
      (processRefreshResp g.svc env).1 = Except.ok newAccess →
      step g (Ev.refreshResp i env) =
        { svc := (processRefreshResp g.svc env).2
          refreshInProgress := false
          refreshQueue := []
          tasks := (resolveAll g.tasks g.refreshQueue newAccess).set i
            (TaskSt.awaitRetry (some (bearerOf newAccess)))
          trace := g.trace ++ [NetReq.apiCall i 2 (some (bearerOf newAccess))] }) ∧
    (∀ (g : GState) (i : Nat) (a newAccess : Option String),
      g.tasks[i]? = some (TaskSt.resolvedQ a newAccess) →
      step g (Ev.resume i) =
        { g with
          tasks := g.tasks.set i (TaskSt.awaitRetry (some (bearerOf newAccess)))
          trace := g.trace ++ [NetReq.apiCall i 2 (some (bearerOf newAccess))] }) ∧
    (∀ (g : GState) (i : Nat) (a : Option String),
      g.tasks[i]? = some (TaskSt.awaitRetry a) →
      step g (Ev.retryResp i 401) =
        { g with tasks := g.tasks.set i (TaskSt.done 401) }) := by
  refine ⟨?_, ?_, ?_, ?_⟩
  · intro s n evs i
    have h := attInv_run evs (initG s n) (attInv_initG s n) i
    omega
  · intro g i a newAccess env ht hok
    exact doRefreshResp_eq_ok ht hok
  · intro g i a newAccess ht
    exact doResume_eq_resolved ht
  · intro g i a ht
    exact doRetryResp_eq ht

/-- Concrete service with a stored credential pair, for witnesses. -/
def svcTok : Svc := setTokens bootSvc (some "A1") (some "R1")

/-- Concrete state: one dispatch caller that has received a 401 and
become the refresh leader. -/
def gLead : GState := run (initG svcTok 1) [Ev.start 0, Ev.firstResp 0 401]

/-- Concrete successful refresh response carrying a new pair. -/
def envOk : RefreshHttp :=
  RefreshHttp.resp true (RespBody.json
    { status := some "success"
      data := some { access_token := some "A2", refresh_token := some "R2",
                     user := none } })

/-- C3 witness: in the concrete one-caller run, the successful refresh
issues exactly the one retry with `Bearer A2`, and a 401 on that retry
is returned as-is. -/
theorem c3_retry_once_bound_witness :
    countApiFor 0 (run gLead [Ev.refreshResp 0 envOk, Ev.retryResp 0 401]).trace ≤ 2 ∧
    step gLead (Ev.refreshResp 0 envOk) =
      { svc := (processRefreshResp gLead.svc envOk).2
        refreshInProgress := false
        refreshQueue := []
        tasks := (resolveAll gLead.tasks gLead.refreshQueue (some "A2")).set 0
          (TaskSt.awaitRetry (some (bearerOf (some "A2"))))
        trace := gLead.trace ++ [NetReq.apiCall 0 2 (some (bearerOf (some "A2")))] } ∧
    step (step gLead (Ev.refreshResp 0 envOk)) (Ev.retryResp 0 401) =
      { step gLead (Ev.refreshResp 0 envOk) with
        tasks := (step gLead (Ev.refreshResp 0 envOk)).tasks.set 0 (TaskSt.done 401) } := by
  refine ⟨?_, ?_, ?_⟩
  · have h := c3_retry_once_bound.1 svcTok 1
      [Ev.start 0, Ev.firstResp 0 401, Ev.refreshResp 0 envOk, Ev.retryResp 0 401] 0
    exact h
  · exact c3_retry_once_bound.2.1 gLead 0 (some (bearerOf (some "A1"))) (some "A2")
      envOk (by decide) rfl
  · exact c3_retry_once_bound.2.2.2 (step gLead (Ev.refreshResp 0 envOk)) 0
      (some (bearerOf (some "A2"))) (by decide)

/-- C9: frame effect of dispatch.  Starting a call, receiving a non-401
first response (success, 404, 500, ...), or a network failure of the
first `fetch` leaves the credential store — in-memory access and refresh
token, user profile, and the persisted entries — exactly as it was. -/
theorem c9_non401_frame (g : GState) (i st : Nat) (h : st ≠ 401) :
    (step g (Ev.start i)).svc = g.svc ∧
    (step g (Ev.firstResp i st)).svc = g.svc ∧
    (step g (Ev.firstFail i)).svc = g.svc := by
  refine ⟨?_, ?_, ?_⟩
  · show (doStart g i).svc = g.svc
    cases ht : g.tasks[i]? with
    | none => rw [doStart_none ht]
    | some t =>
      cases t with
      | start => rw [doStart_eq ht]
      | awaitFirst a => rw [doStart_stuck ht (by simp)]
      | queued a => rw [doStart_stuck ht (by simp)]
      | leader a => rw [doStart_stuck ht (by simp)]
      | resolvedQ a x => rw [doStart_stuck ht (by simp)]
      | rejectedQ a e2 => rw [doStart_stuck ht (by simp)]
      | awaitRetry a => rw [doStart_stuck ht (by simp)]
      | done st2 => rw [doStart_stuck ht (by simp)]
      | failed e2 => rw [doStart_stuck ht (by simp)]
  · show (doFirstResp g i st).svc = g.svc
    cases ht : g.tasks[i]? with
    | none => rw [doFirstResp_none ht]
    | some t =>
      cases t with
      | awaitFirst a => rw [doFirstResp_eq_done ht h]
      | start => rw [doFirstResp_stuck ht (by simp)]
      | queued a => rw [doFirstResp_stuck ht (by simp)]
      | leader a => rw [doFirstResp_stuck ht (by simp)]
      | resolvedQ a x => rw [doFirstResp_stuck ht (by simp)]
      | rejectedQ a e2 => rw [doFirstResp_stuck ht (by simp)]
      | awaitRetry a => rw [doFirstResp_stuck ht (by simp)]
      | done st2 => rw [doFirstResp_stuck ht (by simp)]
      | failed e2 => rw [doFirstResp_stuck ht (by simp)]
  · show (doFirstFail g i).svc = g.svc
    cases ht : g.tasks[i]? with
    | none => rw [doFirstFail_none ht]
    | some t =>
      cases t with
      | awaitFirst a => rw [doFirstFail_eq ht]
      | start => rw [doFirstFail_stuck ht (by simp)]
      | queued a => rw [doFirstFail_stuck ht (by simp)]
      | leader a => rw [doFirstFail_stuck ht (by simp)]
      | resolvedQ a x => rw [doFirstFail_stuck ht (by simp)]
      | rejectedQ a e2 => rw [doFirstFail_stuck ht (by simp)]
      | awaitRetry a => rw [doFirstFail_stuck ht (by simp)]
      | done st2 => rw [doFirstFail_stuck ht (by simp)]
      | failed e2 => rw [doFirstFail_stuck ht (by simp)]

/-- Concrete one-caller state awaiting its first response, with stored
credentials. -/
def gAwait : GState := run (initG svcTok 1) [Ev.start 0]

/-- C9 witness: a 404 first response (and the start and network-failure
segments) leave the concrete store untouched. -/
theorem c9_non401_frame_witness :
    (step gAwait (Ev.start 0)).svc = gAwait.svc ∧
    (step gAwait (Ev.firstResp 0 404)).svc = gAwait.svc ∧
    (step gAwait (Ev.firstFail 0)).svc = gAwait.svc :=
  c9_non401_frame gAwait 0 404 (by decide)

/-- C4: dispatch while unauthenticated.  (a) A dispatch call made while
no access token is present sends its request without an `Authorization`
header.  (b) A dispatch call whose first response is 401 while no
refresh token is present (and no refresh is in flight) fails with the
`noRefreshToken` error, the session cleared, without calling the refresh
endpoint — the trace gains no request. -/
theorem c4_unauthenticated_dispatch :
    (∀ (g : GState) (i : Nat), g.tasks[i]? = some TaskSt.start →
      getAccessToken g.svc = none →
      step g (Ev.start i) =
        { g with tasks := g.tasks.set i (TaskSt.awaitFirst none)
                 trace := g.trace ++ [NetReq.apiCall i 1 none] }) ∧
    (∀ (g : GState) (i : Nat) (a : Option String),
      g.tasks[i]? = some (TaskSt.awaitFirst a) →
      g.refreshInProgress = false →
      getRefreshToken g.svc = none →
      step g (Ev.firstResp i 401) =
        { svc := clearAuth g.svc
          refreshInProgress := false
          refreshQueue := []
          tasks := (rejectAll g.tasks g.refreshQueue RefreshErr.noRefreshToken).set i
            (TaskSt.failed RefreshErr.noRefreshToken)
          trace := g.trace }) := by
  constructor
  · intro g i ht hna
    have hsa : startAuth g.svc = none := by
      simp [startAuth, hna, jsTruthyStr]
    show doStart g i = _
    rw [doStart_eq ht, hsa]
  · intro g i a ht hflag hrt
    have htok : jsTruthyStr (getRefreshToken g.svc) = false := by
      rw [hrt]
      rfl
    exact doFirstResp_eq_notoken ht hflag htok

/-- C4 witness: a concrete unauthenticated caller: the first request
carries no Authorization header, and a 401 with no refresh token fails
with `noRefreshToken`, clearing the session, issuing nothing. -/
theorem c4_unauthenticated_dispatch_witness :
    step (initG bootSvc 1) (Ev.start 0) =
      { initG bootSvc 1 with
        tasks := (initG bootSvc 1).tasks.set 0 (TaskSt.awaitFirst none)
        trace := (initG bootSvc 1).trace ++ [NetReq.apiCall 0 1 none] } ∧
    step (run (initG bootSvc 1) [Ev.start 0]) (Ev.firstResp 0 401) =
      { svc := clearAuth (run (initG bootSvc 1) [Ev.start 0]).svc
        refreshInProgress := false
        refreshQueue := []
        tasks := (rejectAll (run (initG bootSvc 1) [Ev.start 0]).tasks
          (run (initG bootSvc 1) [Ev.start 0]).refreshQueue
          RefreshErr.noRefreshToken).set 0 (TaskSt.failed RefreshErr.noRefreshToken)
        trace := (run (initG bootSvc 1) [Ev.start 0]).trace } :=
  ⟨c4_unauthenticated_dispatch.1 (initG bootSvc 1) 0 (by decide) (by decide),
   c4_unauthenticated_dispatch.2 (run (initG bootSvc 1) [Ev.start 0]) 0 none
     (by decide) (by decide) (by decide)⟩

theorem rejectAll_getElem_notmem (q : List Nat) : ∀ (ts : List TaskSt)
    (e : RefreshErr) (j : Nat), j ∉ q →
    (rejectAll ts q e)[j]? = ts[j]? := by
  induction q with
  | nil => intro ts e j _; rfl
  | cons k qs ih =>
    intro ts e j hj
    have hk : j ≠ k := fun h => hj (h ▸ List.mem_cons_self k qs)
    have hq : j ∉ qs := fun h => hj (List.mem_cons_of_mem k h)
    show (rejectAll (match ts[k]? with
      | some (TaskSt.queued h) => ts.set k (TaskSt.rejectedQ h e)
      | _ => ts) qs e)[j]? = _
    rw [ih _ _ _ hq]
    cases hc : ts[k]? with
    | none => rfl
    | some t =>
      cases t with
      | queued b =>
        show (ts.set k (TaskSt.rejectedQ b e))[j]? = ts[j]?
        rw [List.getElem?_set_ne (fun h => hk h.symm)]
      | _ => rfl

theorem rejectAll_getElem_mem (q : List Nat) : ∀ (ts : List TaskSt)
    (e : RefreshErr) (j : Nat) (b : Option String), q.Nodup → j ∈ q →
    ts[j]? = some (TaskSt.queued b) →
    (rejectAll ts q e)[j]? = some (TaskSt.rejectedQ b e) := by
  induction q with
  | nil => intro ts e j b _ hj; cases hj
  | cons k qs ih =>
    intro ts e j b hnd hj hq
    have hnd2 : qs.Nodup := (List.nodup_cons.mp hnd).2
    by_cases hk : j = k
    · subst hk
      have hnotin : j ∉ qs := (List.nodup_cons.mp hnd).1
      show (rejectAll (match ts[j]? with
        | some (TaskSt.queued h) => ts.set j (TaskSt.rejectedQ h e)
        | _ => ts) qs e)[j]? = _
      rw [hq]
      show (rejectAll (ts.set j (TaskSt.rejectedQ b e)) qs e)[j]? = _
      rw [rejectAll_getElem_notmem qs _ _ _ hnotin,
        List.getElem?_set_self (getElem?_some_lt hq)]
    · have hjq : j ∈ qs := by
        cases List.mem_cons.mp hj with
        | inl h => exact absurd h hk
        | inr h => exact h
      show (rejectAll (match ts[k]? with
        | some (TaskSt.queued h) => ts.set k (TaskSt.rejectedQ h e)
        | _ => ts) qs e)[j]? = _
      cases hc : ts[k]? with
      | none => exact ih _ _ _ _ hnd2 hjq hq
      | some t =>
        cases t with
        | queued b2 =>
          refine ih _ _ _ _ hnd2 hjq ?_
          show (ts.set k (TaskSt.rejectedQ b2 e))[j]? = some (TaskSt.queued b)
          rw [List.getElem?_set_ne (fun h => hk h.symm)]
          exact hq
        | _ => exact ih _ _ _ _ hnd2 hjq hq

theorem resolveAll_getElem_notmem (q : List Nat) : ∀ (ts : List TaskSt)
    (a : Option String) (j : Nat), j ∉ q →
    (resolveAll ts q a)[j]? = ts[j]? := by
  induction q with
  | nil => intro ts a j _; rfl
  | cons k qs ih =>
    intro ts a j hj
    have hk : j ≠ k := fun h => hj (h ▸ List.mem_cons_self k qs)
    have hq : j ∉ qs := fun h => hj (List.mem_cons_of_mem k h)
    show (resolveAll (match ts[k]? with
      | some (TaskSt.queued h) => ts.set k (TaskSt.resolvedQ h a)
      | _ => ts) qs a)[j]? = _
    rw [ih _ _ _ hq]
    cases hc : ts[k]? with
    | none => rfl
    | some t =>
      cases t with
      | queued b =>
        show (ts.set k (TaskSt.resolvedQ b a))[j]? = ts[j]?
        rw [List.getElem?_set_ne (fun h => hk h.symm)]
      | _ => rfl

theorem resolveAll_getElem_mem (q : List Nat) : ∀ (ts : List TaskSt)
    (a : Option String) (j : Nat) (b : Option String), q.Nodup → j ∈ q →
    ts[j]? = some (TaskSt.queued b) →
    (resolveAll ts q a)[j]? = some (TaskSt.resolvedQ b a) := by
  induction q with
  | nil => intro ts a j b _ hj; cases hj
  | cons k qs ih =>
    intro ts a j b hnd hj hq
    have hnd2 : qs.Nodup := (List.nodup_cons.mp hnd).2
    by_cases hk : j = k
    · subst hk
      have hnotin : j ∉ qs := (List.nodup_cons.mp hnd).1
      show (resolveAll (match ts[j]? with
        | some (TaskSt.queued h) => ts.set j (TaskSt.resolvedQ h a)
        | _ => ts) qs a)[j]? = _
      rw [hq]
      show (resolveAll (ts.set j (TaskSt.resolvedQ b a)) qs a)[j]? = _
      rw [resolveAll_getElem_notmem qs _ _ _ hnotin,
        List.getElem?_set_self (getElem?_some_lt hq)]
    · have hjq : j ∈ qs := by
        cases List.mem_cons.mp hj with
        | inl h => exact absurd h hk
        | inr h => exact h
      show (resolveAll (match ts[k]? with
        | some (TaskSt.queued h) => ts.set k (TaskSt.resolvedQ h a)
        | _ => ts) qs a)[j]? = _
      cases hc : ts[k]? with
      | none => exact ih _ _ _ _ hnd2 hjq hq
      | some t =>
        cases t with
        | queued b2 =>
          refine ih _ _ _ _ hnd2 hjq ?_
          show (ts.set k (TaskSt.resolvedQ b2 a))[j]? = some (TaskSt.queued b)
          rw [List.getElem?_set_ne (fun h => hk h.symm)]
          exact hq
        | _ => exact ih _ _ _ _ hnd2 hjq hq

/-- C2: a failing refresh exchange.  (1) When the leader's exchange
fails with error `e`, the waiter queue is emptied, the single-flight
flag drops, the session ends cleared via `clearAuth` and
`isAuthenticated()` is false, the leader fails with `e`, and every
waiter that was queued is rejected with that same `e`.  (2) A rejected
waiter, when its continuation runs, clears the session again and fails
with the same `e`.  (3) The missing-refresh-token failure: a 401 with no
(truthy) refresh token and an idle coordinator clears the session,
empties the queue, rejects every queued waiter with `noRefreshToken`,
and fails the caller with `noRefreshToken`. -/
theorem c2_refresh_failure_rejects_all :
    (∀ (g : GState) (L : Nat) (a : Option String) (env : RefreshHttp)
       (e : RefreshErr),
      g.tasks[L]? = some (TaskSt.leader a) →
      (processRefreshResp g.svc env).1 = Except.error e →
      g.refreshQueue.Nodup →
      (∀ j ∈ g.refreshQueue, ∃ b, g.tasks[j]? = some (TaskSt.queued b)) →
      ((step g (Ev.refreshResp L env)).refreshQueue = [] ∧
       (step g (Ev.refreshResp L env)).refreshInProgress = false ∧
       (step g (Ev.refreshResp L env)).svc =
         clearAuth (processRefreshResp g.svc env).2 ∧
       (isAuthenticated (step g (Ev.refreshResp L env)).svc).1 = false ∧
       (step g (Ev.refreshResp L env)).tasks[L]? = some (TaskSt.failed e) ∧
       (∀ j ∈ g.refreshQueue, ∃ b,
         (step g (Ev.refreshResp L env)).tasks[j]? =
           some (TaskSt.rejectedQ b e)))) ∧
    (∀ (g2 : GState) (j : Nat) (b : Option String) (e : RefreshErr),
      g2.tasks[j]? = some (TaskSt.rejectedQ b e) →
      step g2 (Ev.resume j) =
        { g2 with svc := clearAuth g2.svc
                  tasks := g2.tasks.set j (TaskSt.failed e) }) ∧
    (∀ (g : GState) (i : Nat) (a : Option String),
      g.tasks[i]? = some (TaskSt.awaitFirst a) →
      g.refreshInProgress = false →
      jsTruthyStr (getRefreshToken g.svc) = false →
      g.refreshQueue.Nodup →
      (∀ j ∈ g.refreshQueue, ∃ b, g.tasks[j]? = some (TaskSt.queued b)) →
      ((step g (Ev.firstResp i 401)).svc = clearAuth g.svc ∧
       (isAuthenticated (step g (Ev.firstResp i 401)).svc).1 = false ∧
       (step g (Ev.firstResp i 401)).refreshQueue = [] ∧
       (step g (Ev.firstResp i 401)).tasks[i]? =
         some (TaskSt.failed RefreshErr.noRefreshToken) ∧
       (∀ j ∈ g.refreshQueue, ∃ b,
         (step g (Ev.firstResp i 401)).tasks[j]? =
           some (TaskSt.rejectedQ b RefreshErr.noRefreshToken)))) := by
  refine ⟨?_, ?_, ?_⟩
  · intro g L a env e hL herr hnd hq
    have hstep : step g (Ev.refreshResp L env) =
        { svc := clearAuth (processRefreshResp g.svc env).2
          refreshInProgress := false
          refreshQueue := []
          tasks := (rejectAll g.tasks g.refreshQueue e).set L (TaskSt.failed e)
          trace := g.trace } := doRefreshResp_eq_err hL herr
    rw [hstep]
    refine ⟨rfl, rfl, rfl,
      (clearAuth_wipes (processRefreshResp g.svc env).2).2.2.2.2, ?_, ?_⟩
    · show ((rejectAll g.tasks g.refreshQueue e).set L (TaskSt.failed e))[L]? = _
      rw [List.getElem?_set_self (by
        rw [rejectAll_length]
        exact getElem?_some_lt hL)]
    · intro j hj
      obtain ⟨b, hb⟩ := hq j hj
      have hjL : j ≠ L := by
        intro hLe
        rw [hLe, hL] at hb
        cases hb
      refine ⟨b, ?_⟩
      show ((rejectAll g.tasks g.refreshQueue e).set L (TaskSt.failed e))[j]? = _
      rw [List.getElem?_set_ne (fun h => hjL h.symm)]
      exact rejectAll_getElem_mem g.refreshQueue g.tasks e j b hnd hj hb
  · intro g2 j b e hj
    exact doResume_eq_rejected hj
  · intro g i a ht hflag htok hnd hq
    have hstep : step g (Ev.firstResp i 401) =
        { svc := clearAuth g.svc
          refreshInProgress := false
          refreshQueue := []
          tasks := (rejectAll g.tasks g.refreshQueue RefreshErr.noRefreshToken).set i
            (TaskSt.failed RefreshErr.noRefreshToken)
          trace := g.trace } := doFirstResp_eq_notoken ht hflag htok
    rw [hstep]
    refine ⟨rfl, (clearAuth_wipes g.svc).2.2.2.2, rfl, ?_, ?_⟩
    · show ((rejectAll g.tasks g.refreshQueue RefreshErr.noRefreshToken).set i
        (TaskSt.failed RefreshErr.noRefreshToken))[i]? = _
      rw [List.getElem?_set_self (by
        rw [rejectAll_length]
        exact getElem?_some_lt ht)]
    · intro j hj
      obtain ⟨b, hb⟩ := hq j hj
      have hji : j ≠ i := by
        intro hLe
        rw [hLe, ht] at hb
        cases hb
      refine ⟨b, ?_⟩
      show ((rejectAll g.tasks g.refreshQueue RefreshErr.noRefreshToken).set i
        (TaskSt.failed RefreshErr.noRefreshToken))[j]? = _
      rw [List.getElem?_set_ne (fun h => hji h.symm)]
      exact rejectAll_getElem_mem g.refreshQueue g.tasks
        RefreshErr.noRefreshToken j b hnd hj hb

/-- Concrete two-caller burst: caller 0 leads the refresh, caller 1 is
queued. -/
def gBurst : GState :=
  run (initG svcTok 2) [Ev.start 0, Ev.firstResp 0 401, Ev.start 1,
    Ev.firstResp 1 401]

/-- Concrete failing refresh response (HTTP error status). -/
def envBad : RefreshHttp := RefreshHttp.resp false RespBody.notJson

/-- C2 witness: in the concrete burst, the 403-style refresh failure
rejects the queued caller with the same `refreshRejected` error, empties
the queue, clears the session, and a subsequent resume fails the waiter
with that error. -/
theorem c2_refresh_failure_rejects_all_witness :
    ((step gBurst (Ev.refreshResp 0 envBad)).refreshQueue = [] ∧
     (step gBurst (Ev.refreshResp 0 envBad)).refreshInProgress = false ∧
     (step gBurst (Ev.refreshResp 0 envBad)).svc =
       clearAuth (processRefreshResp gBurst.svc envBad).2 ∧
     (isAuthenticated (step gBurst (Ev.refreshResp 0 envBad)).svc).1 = false ∧
     (step gBurst (Ev.refreshResp 0 envBad)).tasks[0]? =
       some (TaskSt.failed RefreshErr.refreshRejected) ∧
     (∀ j ∈ gBurst.refreshQueue, ∃ b,
       (step gBurst (Ev.refreshResp 0 envBad)).tasks[j]? =
         some (TaskSt.rejectedQ b RefreshErr.refreshRejected))) ∧
    step (step gBurst (Ev.refreshResp 0 envBad)) (Ev.resume 1) =
      { step gBurst (Ev.refreshResp 0 envBad) with
        svc := clearAuth (step gBurst (Ev.refreshResp 0 envBad)).svc
        tasks := (step gBurst (Ev.refreshResp 0 envBad)).tasks.set 1
          (TaskSt.failed RefreshErr.refreshRejected) } :=
  ⟨c2_refresh_failure_rejects_all.1 gBurst 0
      (some (bearerOf (some "A1"))) envBad RefreshErr.refreshRejected
      (by decide) rfl (by decide)
      (by
        intro j hj
        have hj1 : j = 1 := by
          have : gBurst.refreshQueue = [1] := by decide
          rw [this] at hj
          simpa using hj
        subst hj1
        exact ⟨some (bearerOf (some "A1")), by decide⟩),
   c2_refresh_failure_rejects_all.2.1 (step gBurst (Ev.refreshResp 0 envBad)) 1
     (some (bearerOf (some "A1"))) RefreshErr.refreshRejected (by decide)⟩

/-- Events of a 401 burst: dispatch starts and 401 first responses. -/
def isBurstEv (e : Ev) : Prop :=
  (∃ i, e = Ev.start i) ∨ (∃ i, e = Ev.firstResp i 401)

/-- A caller currently blocked on the in-flight refresh: queued waiter or
the leader itself. -/
def isWaitingT (t : TaskSt) : Prop :=
  (∃ a, t = TaskSt.queued a) ∨ (∃ a, t = TaskSt.leader a)

/-- Control states occurring while a refresh cycle's 401 burst is being
absorbed. -/
def isPhase1 (t : TaskSt) : Prop :=
  t = TaskSt.start ∨ (∃ a, t = TaskSt.awaitFirst a) ∨
    (∃ a, t = TaskSt.queued a) ∨ (∃ a, t = TaskSt.leader a)

/-- Invariant holding while a burst of 401s is absorbed from an idle
coordinator: the service is untouched, at most one leader exists and
exactly when the single-flight flag is up, the waiter queue lists exactly
the queued callers, one refresh call has been issued iff the flag is up,
and no retry has been issued. -/
structure Phase1 (s0 : Svc) (g : GState) : Prop where
  svcEq : g.svc = s0
  states : ∀ t ∈ g.tasks, isPhase1 t
  leaders : ∀ (i : Nat) (a : Option String),
    g.tasks[i]? = some (TaskSt.leader a) → g.refreshInProgress = true
  leadersU : ∀ (i j : Nat) (a b : Option String),
    g.tasks[i]? = some (TaskSt.leader a) →
    g.tasks[j]? = some (TaskSt.leader b) → i = j
  flagLeader : g.refreshInProgress = true →
    ∃ (i : Nat) (a : Option String), g.tasks[i]? = some (TaskSt.leader a)
  queueMem : ∀ (j : Nat), j ∈ g.refreshQueue ↔
    ∃ a, g.tasks[j]? = some (TaskSt.queued a)
  queueFlag : g.refreshQueue ≠ [] → g.refreshInProgress = true
  queueNodup : g.refreshQueue.Nodup
  rcount : countRefreshCalls g.trace =
    (if g.refreshInProgress = true then 1 else 0)
  no2 : ∀ i, countApi2For i g.trace = 0

theorem countRefreshCalls_append_api (j k : Nat) (a : Option String)
    (tr : List NetReq) :
    countRefreshCalls (tr ++ [NetReq.apiCall j k a]) = countRefreshCalls tr := by
  simp [countRefreshCalls, List.countP_append, List.countP_cons, List.countP_nil]

theorem countRefreshCalls_append_refresh (a : Option String)
    (tr : List NetReq) :
    countRefreshCalls (tr ++ [NetReq.refreshCall a]) =
      countRefreshCalls tr + 1 := by
  simp [countRefreshCalls, List.countP_append, List.countP_cons, List.countP_nil]

theorem countApi2For_append_api (i j k : Nat) (a : Option String)
    (tr : List NetReq) :
    countApi2For i (tr ++ [NetReq.apiCall j k a]) =
      countApi2For i tr + (if j = i ∧ k = 2 then 1 else 0) := by
  simp only [countApi2For, List.countP_append, List.countP_cons, List.countP_nil]
  by_cases hk : k = 2
  · subst hk
    by_cases hj : j = i <;> simp [hj]
  · have hm : (match NetReq.apiCall j k a with
      | NetReq.apiCall j 2 _ => j == i
      | _ => false) = false := by
      match k, hk with
      | 0, _ => rfl
      | 1, _ => rfl
      | 2, h => exact absurd rfl h
      | m + 3, _ => rfl
    rw [hm]
    simp [hk]

theorem countApi2For_append_refresh (i : Nat) (a : Option String)
    (tr : List NetReq) :
    countApi2For i (tr ++ [NetReq.refreshCall a]) = countApi2For i tr := by
  simp [countApi2For, List.countP_append, List.countP_cons, List.countP_nil]

theorem phase1_init (s : Svc) (n : Nat) : Phase1 s (initG s n) := by
  have htasks : (initG s n).tasks = List.replicate n TaskSt.start := rfl
  refine ⟨rfl, ?_, ?_, ?_, ?_, ?_, ?_, ?_, rfl, ?_⟩
  · intro t ht
    rw [List.eq_of_mem_replicate ht]
    exact Or.inl rfl
  · intro i a h
    rw [htasks, List.getElem?_replicate] at h
    by_cases hi : i < n
    · rw [if_pos hi] at h
      cases h
    · rw [if_neg hi] at h
      cases h
  · intro i j a b h1 h2
    rw [htasks, List.getElem?_replicate] at h1
    by_cases hi : i < n
    · rw [if_pos hi] at h1
      cases h1
    · rw [if_neg hi] at h1
      cases h1
  · intro h
    cases h
  · intro j
    constructor
    · intro h
      cases h
    · rintro ⟨a, h⟩
      rw [htasks, List.getElem?_replicate] at h
      by_cases hj : j < n
      · rw [if_pos hj] at h
        cases h
      · rw [if_neg hj] at h
        cases h
  · intro h
    exact absurd rfl h
  · exact List.nodup_nil
  · intro i
    rfl

theorem phase1_start {s : Svc} {g : GState} (hp : Phase1 s g) (i : Nat) :
    Phase1 s (doStart g i) := by
  cases ht : g.tasks[i]? with
  | none => rw [doStart_none ht]; exact hp
  | some t =>
    cases t with
    | start =>
      rw [doStart_eq ht]
      have hlen : i < g.tasks.length := getElem?_some_lt ht
      refine ⟨hp.svcEq, ?_, ?_, ?_, ?_, ?_, hp.queueFlag, hp.queueNodup, ?_, ?_⟩
      · intro t htm
        rcases List.mem_or_eq_of_mem_set htm with h | h
        · exact hp.states t h
        · rw [h]
          exact Or.inr (Or.inl ⟨_, rfl⟩)
      · intro j a hj
        by_cases hij : j = i
        · subst hij
          rw [List.getElem?_set_self hlen] at hj
          simp at hj
        · rw [List.getElem?_set_ne (fun h => hij h.symm)] at hj
          exact hp.leaders j a hj
      · intro j k a b hj hk
        by_cases hij : j = i
        · subst hij
          rw [List.getElem?_set_self hlen] at hj
          simp at hj
        · by_cases hik : k = i
          · subst hik
            rw [List.getElem?_set_self hlen] at hk
            simp at hk
          · rw [List.getElem?_set_ne (fun h => hij h.symm)] at hj
            rw [List.getElem?_set_ne (fun h => hik h.symm)] at hk
            exact hp.leadersU j k a b hj hk
      · intro hf
        obtain ⟨i0, a0, h0⟩ := hp.flagLeader hf
        have hne : i0 ≠ i := by
          intro he
          subst he
          rw [ht] at h0
          simp at h0
        exact ⟨i0, a0, by
          rw [List.getElem?_set_ne (fun h => hne h.symm)]
          exact h0⟩
      · intro j
        by_cases hij : j = i
        · subst hij
          constructor
          · intro hmem
            obtain ⟨a, ha⟩ := (hp.queueMem j).mp hmem
            rw [ht] at ha
            simp at ha
          · rintro ⟨a, ha⟩
            rw [List.getElem?_set_self hlen] at ha
            simp at ha
        · rw [List.getElem?_set_ne (fun h => hij h.symm)]
          exact hp.queueMem j
      · rw [countRefreshCalls_append_api]
        exact hp.rcount
      · intro i2
        rw [countApi2For_append_api]
        simp [hp.no2 i2]
    | awaitFirst a => rw [doStart_stuck ht (by simp)]; exact hp
    | queued a => rw [doStart_stuck ht (by simp)]; exact hp
    | leader a => rw [doStart_stuck ht (by simp)]; exact hp
    | resolvedQ a x => rw [doStart_stuck ht (by simp)]; exact hp
    | rejectedQ a e2 => rw [doStart_stuck ht (by simp)]; exact hp
    | awaitRetry a => rw [doStart_stuck ht (by simp)]; exact hp
    | done st => rw [doStart_stuck ht (by simp)]; exact hp
    | failed e2 => rw [doStart_stuck ht (by simp)]; exact hp

theorem phase1_first401 {s : Svc} {g : GState} (hp : Phase1 s g)
    (htok : jsTruthyStr (getRefreshToken s) = true) (i : Nat) :
    Phase1 s (doFirstResp g i 401) := by
  cases ht : g.tasks[i]? with
  | none => rw [doFirstResp_none ht]; exact hp
  | some t =>
    cases t with
    | awaitFirst a =>
      have hlen : i < g.tasks.length := getElem?_some_lt ht
      by_cases hflag : g.refreshInProgress = true
      · rw [doFirstResp_eq_queue ht hflag]
        have hnotin : i ∉ g.refreshQueue := by
          intro hmem
          obtain ⟨b, hb⟩ := (hp.queueMem i).mp hmem
          rw [ht] at hb
          simp at hb
        refine ⟨hp.svcEq, ?_, ?_, ?_, ?_, ?_, ?_, ?_, ?_, hp.no2⟩
        · intro t htm
          rcases List.mem_or_eq_of_mem_set htm with h | h
          · exact hp.states t h
          · rw [h]
            exact Or.inr (Or.inr (Or.inl ⟨_, rfl⟩))
        · intro j b hj
          by_cases hij : j = i
          · subst hij
            rw [List.getElem?_set_self hlen] at hj
            simp at hj
          · rw [List.getElem?_set_ne (fun h => hij h.symm)] at hj
            exact hp.leaders j b hj
        · intro j k b c hj hk
          by_cases hij : j = i
          · subst hij
            rw [List.getElem?_set_self hlen] at hj
            simp at hj
          · by_cases hik : k = i
            · subst hik
              rw [List.getElem?_set_self hlen] at hk
              simp at hk
            · rw [List.getElem?_set_ne (fun h => hij h.symm)] at hj
              rw [List.getElem?_set_ne (fun h => hik h.symm)] at hk
              exact hp.leadersU j k b c hj hk
        · intro hf
          obtain ⟨i0, a0, h0⟩ := hp.flagLeader hf
          have hne : i0 ≠ i := by
            intro he
            subst he
            rw [ht] at h0
            simp at h0
          exact ⟨i0, a0, by
            rw [List.getElem?_set_ne (fun h => hne h.symm)]
            exact h0⟩
        · intro j
          rw [List.mem_append, List.mem_singleton]
          by_cases hij : j = i
          · subst hij
            constructor
            · intro _
              exact ⟨a, by rw [List.getElem?_set_self hlen]⟩
            · intro _
              exact Or.inr rfl
          · rw [List.getElem?_set_ne (fun h => hij h.symm)]
            constructor
            · intro hd
              cases hd with
              | inl h => exact (hp.queueMem j).mp h
              | inr h => exact absurd h hij
            · intro he
              exact Or.inl ((hp.queueMem j).mpr he)
        · intro _
          exact hflag
        · simp [List.nodup_append, hp.queueNodup, hnotin]
        · rw [hp.rcount]
      · have hflag2 : g.refreshInProgress = false := by
          cases hb : g.refreshInProgress
          · rfl
          · exact absurd hb hflag
        have htok2 : jsTruthyStr (getRefreshToken g.svc) = true := by
          rw [hp.svcEq]
          exact htok
        rw [doFirstResp_eq_leader ht hflag2 htok2]
        refine ⟨hp.svcEq, ?_, ?_, ?_, ?_, ?_, ?_, hp.queueNodup, ?_, ?_⟩
        · intro t htm
          rcases List.mem_or_eq_of_mem_set htm with h | h
          · exact hp.states t h
          · rw [h]
            exact Or.inr (Or.inr (Or.inr ⟨_, rfl⟩))
        · intro j b _
          rfl
        · intro j k b c hj hk
          by_cases hij : j = i
          · by_cases hik : k = i
            · rw [hij, hik]
            · rw [List.getElem?_set_ne (fun h => hik h.symm)] at hk
              rw [hp.leaders k c hk] at hflag2
              cases hflag2
          · rw [List.getElem?_set_ne (fun h => hij h.symm)] at hj
            rw [hp.leaders j b hj] at hflag2
            cases hflag2
        · intro _
          exact ⟨i, a, by rw [List.getElem?_set_self hlen]⟩
        · intro j
          by_cases hij : j = i
          · subst hij
            constructor
            · intro hmem
              obtain ⟨b, hb⟩ := (hp.queueMem j).mp hmem
              rw [ht] at hb
              simp at hb
            · rintro ⟨b, hb⟩
              rw [List.getElem?_set_self hlen] at hb
              simp at hb
          · rw [List.getElem?_set_ne (fun h => hij h.symm)]
            exact hp.queueMem j
        · intro _
          rfl
        · rw [countRefreshCalls_append_refresh, hp.rcount, hflag2]
          simp
        · intro i2
          rw [countApi2For_append_refresh]
          exact hp.no2 i2
    | start => rw [doFirstResp_stuck ht (by simp)]; exact hp
    | queued a => rw [doFirstResp_stuck ht (by simp)]; exact hp
    | leader a => rw [doFirstResp_stuck ht (by simp)]; exact hp
    | resolvedQ a x => rw [doFirstResp_stuck ht (by simp)]; exact hp
    | rejectedQ a e2 => rw [doFirstResp_stuck ht (by simp)]; exact hp
    | awaitRetry a => rw [doFirstResp_stuck ht (by simp)]; exact hp
    | done st => rw [doFirstResp_stuck ht (by simp)]; exact hp
    | failed e2 => rw [doFirstResp_stuck ht (by simp)]; exact hp

theorem phase1_run {s : Svc} (htok : jsTruthyStr (getRefreshToken s) = true) :
    ∀ (evs : List Ev) (g : GState), Phase1 s g →
    (∀ e ∈ evs, isBurstEv e) → Phase1 s (run g evs) := by
  intro evs
  induction evs with
  | nil => intro g hp _; exact hp
  | cons e es ih =>
    intro g hp hb
    have he : isBurstEv e := hb e (List.mem_cons_self e es)
    have hes : ∀ e2 ∈ es, isBurstEv e2 := fun e2 h2 =>
      hb e2 (List.mem_cons_of_mem e h2)
    show Phase1 s (run (step g e) es)
    refine ih (step g e) ?_ hes
    rcases he with ⟨i, rfl⟩ | ⟨i, rfl⟩
    · exact phase1_start hp i
    · exact phase1_first401 hp htok i

/-- Pointwise description of a caller after the burst's refresh succeeded
with access-token value `aNew`: waiters hold the shared new token and
have not yet retried; callers past their retry have issued exactly one. -/
def phase2At (aNew : Option String) (tr : List NetReq) (i : Nat) :
    TaskSt → Prop
  | TaskSt.resolvedQ _ x => x = aNew ∧ countApi2For i tr = 0
  | TaskSt.awaitRetry a => a = some (bearerOf aNew) ∧ countApi2For i tr = 1
  | TaskSt.done _ => countApi2For i tr = 1
  | TaskSt.failed _ => countApi2For i tr = 1
  | _ => False

/-- Invariant after the burst's refresh succeeded: every caller is a
resolved waiter or past its retry, exactly one refresh call was ever
issued, and every retry carries the shared new bearer token. -/
structure Phase2 (aNew : Option String) (g : GState) : Prop where
  states : ∀ (i : Nat) (t : TaskSt), g.tasks[i]? = some t →
    phase2At aNew g.trace i t
  rcount : countRefreshCalls g.trace = 1
  auth2 : ∀ (i k : Nat) (a : Option String), NetReq.apiCall i k a ∈ g.trace →
    k = 2 → a = some (bearerOf aNew)

theorem getElem?_eq_none_of_ge {α : Type} {l : List α} {i : Nat}
    (h : l.length ≤ i) : l[i]? = none :=
  List.getElem?_eq_none h

theorem no_api2_of_count_zero {i : Nat} {tr : List NetReq}
    (h : countApi2For i tr = 0) (k : Nat) (a : Option String)
    (hmem : NetReq.apiCall i k a ∈ tr) (hk : k = 2) : False := by
  subst hk
  have hz := List.countP_eq_zero.mp h _ hmem
  simp at hz

theorem phase2_of_burst {s : Svc} {g : GState} (hp : Phase1 s g)
    (hw : ∀ t ∈ g.tasks, isWaitingT t)
    {L : Nat} {aL : Option String}
    (hL : g.tasks[L]? = some (TaskSt.leader aL))
    {env : RefreshHttp} {newAccess : Option String}
    (hok : (processRefreshResp g.svc env).1 = Except.ok newAccess) :
    Phase2 newAccess (step g (Ev.refreshResp L env)) := by
  have hstep : step g (Ev.refreshResp L env) =
      { svc := (processRefreshResp g.svc env).2
        refreshInProgress := false
        refreshQueue := []
        tasks := (resolveAll g.tasks g.refreshQueue newAccess).set L
          (TaskSt.awaitRetry (some (bearerOf newAccess)))
        trace := g.trace ++ [NetReq.apiCall L 2 (some (bearerOf newAccess))] } :=
    doRefreshResp_eq_ok hL hok
  rw [hstep]
  have hlen : L < g.tasks.length := getElem?_some_lt hL
  refine ⟨?_, ?_, ?_⟩
  · intro i t hti
    by_cases hiL : i = L
    · subst hiL
      rw [List.getElem?_set_self (by
        rw [resolveAll_length]
        exact hlen)] at hti
      have := Option.some.inj hti
      rw [← this]
      refine ⟨rfl, ?_⟩
      rw [countApi2For_append_api]
      simp [hp.no2 i]
    · rw [List.getElem?_set_ne (fun h => hiL h.symm)] at hti
      cases horig : g.tasks[i]? with
      | none =>
        have hge : g.tasks.length ≤ i := by
          by_contra hc
          rw [(List.getElem?_eq_some_getElem_iff g.tasks i (by omega)).mpr
            trivial] at horig
          cases horig
        rw [getElem?_eq_none_of_ge (by
          rw [resolveAll_length]
          exact hge)] at hti
        cases hti
      | some t0 =>
        have hwt := hw t0 (List.getElem?_mem horig)
        rcases hwt with ⟨b, rfl⟩ | ⟨b, rfl⟩
        · have hiq : i ∈ g.refreshQueue := (hp.queueMem i).mpr ⟨b, horig⟩
          rw [resolveAll_getElem_mem g.refreshQueue g.tasks newAccess i b
            hp.queueNodup hiq horig] at hti
          have := Option.some.inj hti
          rw [← this]
          refine ⟨rfl, ?_⟩
          have hLi : ¬ L = i := fun h => hiL h.symm
          rw [countApi2For_append_api]
          simp [hp.no2 i, hLi]
        · exact absurd (hp.leadersU i L b aL horig hL) hiL
  · rw [countRefreshCalls_append_api, hp.rcount, hp.leaders L aL hL]
    simp
  · intro i k a hmem hk
    rcases List.mem_append.mp hmem with h | h
    · exact (no_api2_of_count_zero (hp.no2 i) k a h hk).elim
    · rw [List.mem_singleton] at h
      cases h
      rfl

theorem phase2At_congr {aNew : Option String} {tr tr2 : List NetReq}
    {i : Nat} {t : TaskSt} (h : phase2At aNew tr i t)
    (hc : countApi2For i tr2 = countApi2For i tr) :
    phase2At aNew tr2 i t := by
  cases t with
  | resolvedQ b x => exact ⟨h.1, by rw [hc]; exact h.2⟩
  | awaitRetry a => exact ⟨h.1, by rw [hc]; exact h.2⟩
  | done st => show countApi2For i tr2 = 1; rw [hc]; exact h
  | failed e => show countApi2For i tr2 = 1; rw [hc]; exact h
  | start => exact h.elim
  | awaitFirst a => exact h.elim
  | queued a => exact h.elim
  | leader a => exact h.elim
  | rejectedQ a e => exact h.elim

theorem phase2_step {aNew : Option String} {g : GState} (hp : Phase2 aNew g)
    (e : Ev) : Phase2 aNew (step g e) := by
  cases e with
  | start j =>
    show Phase2 aNew (doStart g j)
    cases ht : g.tasks[j]? with
    | none => rw [doStart_none ht]; exact hp
    | some t =>
      have hx := hp.states j t ht
      cases t with
      | start => exact hx.elim
      | awaitFirst a => exact hx.elim
      | queued a => exact hx.elim
      | leader a => exact hx.elim
      | rejectedQ a e2 => exact hx.elim
      | resolvedQ a x => rw [doStart_stuck ht (by simp)]; exact hp
      | awaitRetry a => rw [doStart_stuck ht (by simp)]; exact hp
      | done st => rw [doStart_stuck ht (by simp)]; exact hp
      | failed e2 => rw [doStart_stuck ht (by simp)]; exact hp
  | firstResp j st =>
    show Phase2 aNew (doFirstResp g j st)
    cases ht : g.tasks[j]? with
    | none => rw [doFirstResp_none ht]; exact hp
    | some t =>
      have hx := hp.states j t ht
      cases t with
      | start => exact hx.elim
      | awaitFirst a => exact hx.elim
      | queued a => exact hx.elim
      | leader a => exact hx.elim
      | rejectedQ a e2 => exact hx.elim
      | resolvedQ a x => rw [doFirstResp_stuck ht (by simp)]; exact hp
      | awaitRetry a => rw [doFirstResp_stuck ht (by simp)]; exact hp
      | done st2 => rw [doFirstResp_stuck ht (by simp)]; exact hp
      | failed e2 => rw [doFirstResp_stuck ht (by simp)]; exact hp
  | firstFail j =>
    show Phase2 aNew (doFirstFail g j)
    cases ht : g.tasks[j]? with
    | none => rw [doFirstFail_none ht]; exact hp
    | some t =>
      have hx := hp.states j t ht
      cases t with
      | start => exact hx.elim
      | awaitFirst a => exact hx.elim
      | queued a => exact hx.elim
      | leader a => exact hx.elim
      | rejectedQ a e2 => exact hx.elim
      | resolvedQ a x => rw [doFirstFail_stuck ht (by simp)]; exact hp
      | awaitRetry a => rw [doFirstFail_stuck ht (by simp)]; exact hp
      | done st2 => rw [doFirstFail_stuck ht (by simp)]; exact hp
      | failed e2 => rw [doFirstFail_stuck ht (by simp)]; exact hp
  | refreshResp j env =>
    show Phase2 aNew (doRefreshResp g j env)
    cases ht : g.tasks[j]? with
    | none => rw [doRefreshResp_none ht]; exact hp
    | some t =>
      have hx := hp.states j t ht
      cases t with
      | start => exact hx.elim
      | awaitFirst a => exact hx.elim
      | queued a => exact hx.elim
      | leader a => exact hx.elim
      | rejectedQ a e2 => exact hx.elim
      | resolvedQ a x => rw [doRefreshResp_stuck ht (by simp)]; exact hp
      | awaitRetry a => rw [doRefreshResp_stuck ht (by simp)]; exact hp
      | done st2 => rw [doRefreshResp_stuck ht (by simp)]; exact hp
      | failed e2 => rw [doRefreshResp_stuck ht (by simp)]; exact hp
  | resume j =>
    show Phase2 aNew (doResume g j)
    cases ht : g.tasks[j]? with
    | none => rw [doResume_none ht]; exact hp
    | some t =>
      have hx := hp.states j t ht
      cases t with
      | start => exact hx.elim
      | awaitFirst a => exact hx.elim
      | queued a => exact hx.elim
      | leader a => exact hx.elim
      | rejectedQ a e2 => exact hx.elim
      | resolvedQ a x =>
        obtain ⟨hxa, hxc⟩ := hx
        subst hxa
        rw [doResume_eq_resolved ht]
        have hlen : j < g.tasks.length := getElem?_some_lt ht
        refine ⟨?_, ?_, ?_⟩
        · intro i t2 hti2
          by_cases hij : i = j
          · subst hij
            rw [List.getElem?_set_self hlen] at hti2
            rw [← Option.some.inj hti2]
            refine ⟨rfl, ?_⟩
            rw [countApi2For_append_api]
            simp [hxc]
          · rw [List.getElem?_set_ne (fun h => hij h.symm)] at hti2
            refine phase2At_congr (hp.states i t2 hti2) ?_
            rw [countApi2For_append_api]
            have hji : ¬ j = i := fun h => hij h.symm
            simp [hji]
        · rw [countRefreshCalls_append_api]
          exact hp.rcount
        · intro i k a2 hmem hk
          rcases List.mem_append.mp hmem with h | h
          · exact hp.auth2 i k a2 h hk
          · rw [List.mem_singleton] at h
            cases h
            rfl
      | awaitRetry a => rw [doResume_stuck ht (by simp) (by simp)]; exact hp
      | done st2 => rw [doResume_stuck ht (by simp) (by simp)]; exact hp
      | failed e2 => rw [doResume_stuck ht (by simp) (by simp)]; exact hp
  | retryResp j st =>
    show Phase2 aNew (doRetryResp g j st)
    cases ht : g.tasks[j]? with
    | none => rw [doRetryResp_none ht]; exact hp
    | some t =>
      have hx := hp.states j t ht
      cases t with
      | start => exact hx.elim
      | awaitFirst a => exact hx.elim
      | queued a => exact hx.elim
      | leader a => exact hx.elim
      | rejectedQ a e2 => exact hx.elim
      | awaitRetry a =>
        rw [doRetryResp_eq ht]
        have hlen : j < g.tasks.length := getElem?_some_lt ht
        refine ⟨?_, hp.rcount, hp.auth2⟩
        intro i t2 hti2
        by_cases hij : i = j
        · subst hij
          rw [List.getElem?_set_self hlen] at hti2
          rw [← Option.some.inj hti2]
          exact hx.2
        · rw [List.getElem?_set_ne (fun h => hij h.symm)] at hti2
          exact hp.states i t2 hti2
      | resolvedQ a x => rw [doRetryResp_stuck ht (by simp)]; exact hp
      | done st2 => rw [doRetryResp_stuck ht (by simp)]; exact hp
      | failed e2 => rw [doRetryResp_stuck ht (by simp)]; exact hp
  | retryFail j =>
    show Phase2 aNew (doRetryFail g j)
    cases ht : g.tasks[j]? with
    | none => rw [doRetryFail_none ht]; exact hp
    | some t =>
      have hx := hp.states j t ht
      cases t with
      | start => exact hx.elim
      | awaitFirst a => exact hx.elim
      | queued a => exact hx.elim
      | leader a => exact hx.elim
      | rejectedQ a e2 => exact hx.elim
      | awaitRetry a =>
        rw [doRetryFail_eq ht]
        have hlen : j < g.tasks.length := getElem?_some_lt ht
        refine ⟨?_, hp.rcount, hp.auth2⟩
        intro i t2 hti2
        by_cases hij : i = j
        · subst hij
          rw [List.getElem?_set_self hlen] at hti2
          rw [← Option.some.inj hti2]
          exact hx.2
        · rw [List.getElem?_set_ne (fun h => hij h.symm)] at hti2
          exact hp.states i t2 hti2
      | resolvedQ a x => rw [doRetryFail_stuck ht (by simp)]; exact hp
      | done st2 => rw [doRetryFail_stuck ht (by simp)]; exact hp
      | failed e2 => rw [doRetryFail_stuck ht (by simp)]; exact hp

theorem phase2_run {aNew : Option String} : ∀ (evs : List Ev) (g : GState),
    Phase2 aNew g → Phase2 aNew (run g evs) := by
  intro evs
  induction evs with
  | nil => intro g hp; exact hp
  | cons e es ih =>
    intro g hp
    show Phase2 aNew (run (step g e) es)
    exact ih (step g e) (phase2_step hp e)

/-- Caller `i` is not (or no longer) holding an unconsumed resolution. -/
def NotRes (i : Nat) (g : GState) : Prop :=
  ∀ (b x : Option String), g.tasks[i]? ≠ some (TaskSt.resolvedQ b x)

theorem resume_notRes {aNew : Option String} {g : GState} (hp : Phase2 aNew g)
    (i : Nat) : NotRes i (step g (Ev.resume i)) := by
  show NotRes i (doResume g i)
  cases ht : g.tasks[i]? with
  | none =>
    rw [doResume_none ht]
    intro b x h
    rw [ht] at h
    cases h
  | some t =>
    have hx := hp.states i t ht
    have hlen : i < g.tasks.length := getElem?_some_lt ht
    cases t with
    | start => exact hx.elim
    | awaitFirst a => exact hx.elim
    | queued a => exact hx.elim
    | leader a => exact hx.elim
    | rejectedQ a e2 => exact hx.elim
    | resolvedQ a x =>
      rw [doResume_eq_resolved ht]
      intro b x2 h
      rw [List.getElem?_set_self hlen] at h
      simp at h
    | awaitRetry a =>
      rw [doResume_stuck ht (by simp) (by simp)]
      intro b x h
      rw [ht] at h
      simp at h
    | done st =>
      rw [doResume_stuck ht (by simp) (by simp)]
      intro b x h
      rw [ht] at h
      simp at h
    | failed e2 =>
      rw [doResume_stuck ht (by simp) (by simp)]
      intro b x h
      rw [ht] at h
      simp at h

theorem phase2_notRes_step {aNew : Option String} {g : GState} {i : Nat}
    (hp : Phase2 aNew g) (hnr : NotRes i g) (e : Ev) : NotRes i (step g e) := by
  cases e with
  | start j =>
    show NotRes i (doStart g j)
    cases ht : g.tasks[j]? with
    | none => rw [doStart_none ht]; exact hnr
    | some t =>
      have hx := hp.states j t ht
      cases t with
      | start => exact hx.elim
      | awaitFirst a => exact hx.elim
      | queued a => exact hx.elim
      | leader a => exact hx.elim
      | rejectedQ a e2 => exact hx.elim
      | resolvedQ a x => rw [doStart_stuck ht (by simp)]; exact hnr
      | awaitRetry a => rw [doStart_stuck ht (by simp)]; exact hnr
      | done st => rw [doStart_stuck ht (by simp)]; exact hnr
      | failed e2 => rw [doStart_stuck ht (by simp)]; exact hnr
  | firstResp j st =>
    show NotRes i (doFirstResp g j st)
    cases ht : g.tasks[j]? with
    | none => rw [doFirstResp_none ht]; exact hnr
    | some t =>
      have hx := hp.states j t ht
      cases t with
      | start => exact hx.elim
      | awaitFirst a => exact hx.elim
      | queued a => exact hx.elim
      | leader a => exact hx.elim
      | rejectedQ a e2 => exact hx.elim
      | resolvedQ a x => rw [doFirstResp_stuck ht (by simp)]; exact hnr
      | awaitRetry a => rw [doFirstResp_stuck ht (by simp)]; exact hnr
      | done st2 => rw [doFirstResp_stuck ht (by simp)]; exact hnr
      | failed e2 => rw [doFirstResp_stuck ht (by simp)]; exact hnr
  | firstFail j =>
    show NotRes i (doFirstFail g j)
    cases ht : g.tasks[j]? with
    | none => rw [doFirstFail_none ht]; exact hnr
    | some t =>
      have hx := hp.states j t ht
      cases t with
      | start => exact hx.elim
      | awaitFirst a => exact hx.elim
      | queued a => exact hx.elim
      | leader a => exact hx.elim
      | rejectedQ a e2 => exact hx.elim
      | resolvedQ a x => rw [doFirstFail_stuck ht (by simp)]; exact hnr
      | awaitRetry a => rw [doFirstFail_stuck ht (by simp)]; exact hnr
      | done st2 => rw [doFirstFail_stuck ht (by simp)]; exact hnr
      | failed e2 => rw [doFirstFail_stuck ht (by simp)]; exact hnr
  | refreshResp j env =>
    show NotRes i (doRefreshResp g j env)
    cases ht : g.tasks[j]? with
    | none => rw [doRefreshResp_none ht]; exact hnr
    | some t =>
      have hx := hp.states j t ht
      cases t with
      | start => exact hx.elim
      | awaitFirst a => exact hx.elim
      | queued a => exact hx.elim
      | leader a => exact hx.elim
      | rejectedQ a e2 => exact hx.elim
      | resolvedQ a x => rw [doRefreshResp_stuck ht (by simp)]; exact hnr
      | awaitRetry a => rw [doRefreshResp_stuck ht (by simp)]; exact hnr
      | done st2 => rw [doRefreshResp_stuck ht (by simp)]; exact hnr
      | failed e2 => rw [doRefreshResp_stuck ht (by simp)]; exact hnr
  | resume j =>
    show NotRes i (doResume g j)
    cases ht : g.tasks[j]? with
    | none => rw [doResume_none ht]; exact hnr
    | some t =>
      have hx := hp.states j t ht
      have hlen : j < g.tasks.length := getElem?_some_lt ht
      cases t with
      | start => exact hx.elim
      | awaitFirst a => exact hx.elim
      | queued a => exact hx.elim
      | leader a => exact hx.elim
      | rejectedQ a e2 => exact hx.elim
      | resolvedQ a x =>
        rw [doResume_eq_resolved ht]
        intro b x2 h
        by_cases hij : i = j
        · subst hij
          rw [List.getElem?_set_self hlen] at h
          simp at h
        · rw [List.getElem?_set_ne (fun h2 => hij h2.symm)] at h
          exact hnr b x2 h
      | awaitRetry a => rw [doResume_stuck ht (by simp) (by simp)]; exact hnr
      | done st => rw [doResume_stuck ht (by simp) (by simp)]; exact hnr
      | failed e2 => rw [doResume_stuck ht (by simp) (by simp)]; exact hnr
  | retryResp j st =>
    show NotRes i (doRetryResp g j st)
    cases ht : g.tasks[j]? with
    | none => rw [doRetryResp_none ht]; exact hnr
    | some t =>
      have hlen : j < g.tasks.length := getElem?_some_lt ht
      cases t with
      | awaitRetry a =>
        rw [doRetryResp_eq ht]
        intro b x2 h
        by_cases hij : i = j
        · subst hij
          rw [List.getElem?_set_self hlen] at h
          simp at h
        · rw [List.getElem?_set_ne (fun h2 => hij h2.symm)] at h
          exact hnr b x2 h
      | start => rw [doRetryResp_stuck ht (by simp)]; exact hnr
      | awaitFirst a => rw [doRetryResp_stuck ht (by simp)]; exact hnr
      | queued a => rw [doRetryResp_stuck ht (by simp)]; exact hnr
      | leader a => rw [doRetryResp_stuck ht (by simp)]; exact hnr
      | resolvedQ a x => rw [doRetryResp_stuck ht (by simp)]; exact hnr
      | rejectedQ a e2 => rw [doRetryResp_stuck ht (by simp)]; exact hnr
      | done st2 => rw [doRetryResp_stuck ht (by simp)]; exact hnr
      | failed e2 => rw [doRetryResp_stuck ht (by simp)]; exact hnr
  | retryFail j =>
    show NotRes i (doRetryFail g j)
    cases ht : g.tasks[j]? with
    | none => rw [doRetryFail_none ht]; exact hnr
    | some t =>
      have hlen : j < g.tasks.length := getElem?_some_lt ht
      cases t with
      | awaitRetry a =>
        rw [doRetryFail_eq ht]
        intro b x2 h
        by_cases hij : i = j
        · subst hij
          rw [List.getElem?_set_self hlen] at h
          simp at h
        · rw [List.getElem?_set_ne (fun h2 => hij h2.symm)] at h
          exact hnr b x2 h
      | start => rw [doRetryFail_stuck ht (by simp)]; exact hnr
      | awaitFirst a => rw [doRetryFail_stuck ht (by simp)]; exact hnr
      | queued a => rw [doRetryFail_stuck ht (by simp)]; exact hnr
      | leader a => rw [doRetryFail_stuck ht (by simp)]; exact hnr
      | resolvedQ a x => rw [doRetryFail_stuck ht (by simp)]; exact hnr
      | rejectedQ a e2 => rw [doRetryFail_stuck ht (by simp)]; exact hnr
      | done st2 => rw [doRetryFail_stuck ht (by simp)]; exact hnr
      | failed e2 => rw [doRetryFail_stuck ht (by simp)]; exact hnr

theorem phase2_notRes_run {aNew : Option String} {i : Nat} :
    ∀ (evs : List Ev) (g : GState), Phase2 aNew g → NotRes i g →
    NotRes i (run g evs) := by
  intro evs
  induction evs with
  | nil => intro g _ hnr; exact hnr
  | cons e es ih =>
    intro g hp hnr
    show NotRes i (run (step g e) es)
    exact ih (step g e) (phase2_step hp e) (phase2_notRes_step hp hnr e)

theorem step_shape (g : GState) (e : Ev) :
    (step g e).tasks.length = g.tasks.length ∧
    ∃ l, (step g e).trace = g.trace ++ l := by
  have hid : g.tasks.length = g.tasks.length ∧
      ∃ l, g.trace = g.trace ++ l := ⟨rfl, ⟨[], (List.append_nil _).symm⟩⟩
  cases e with
  | start i =>
    show (doStart g i).tasks.length = g.tasks.length ∧
      ∃ l, (doStart g i).trace = g.trace ++ l
    cases ht : g.tasks[i]? with
    | none => rw [doStart_none ht]; exact hid
    | some t =>
      cases t with
      | start =>
        rw [doStart_eq ht]
        exact ⟨List.length_set g.tasks i _, ⟨_, rfl⟩⟩
      | awaitFirst a => rw [doStart_stuck ht (by simp)]; exact hid
      | queued a => rw [doStart_stuck ht (by simp)]; exact hid
      | leader a => rw [doStart_stuck ht (by simp)]; exact hid
      | resolvedQ a x => rw [doStart_stuck ht (by simp)]; exact hid
      | rejectedQ a e2 => rw [doStart_stuck ht (by simp)]; exact hid
      | awaitRetry a => rw [doStart_stuck ht (by simp)]; exact hid
      | done st => rw [doStart_stuck ht (by simp)]; exact hid
      | failed e2 => rw [doStart_stuck ht (by simp)]; exact hid
  | firstResp i st =>
    show (doFirstResp g i st).tasks.length = g.tasks.length ∧
      ∃ l, (doFirstResp g i st).trace = g.trace ++ l
    cases ht : g.tasks[i]? with
    | none => rw [doFirstResp_none ht]; exact hid
    | some t =>
      cases t with
      | awaitFirst a =>
        by_cases hst : st = 401
        · subst hst
          cases hflag : g.refreshInProgress with
          | true =>
            rw [doFirstResp_eq_queue ht hflag]
            exact ⟨List.length_set g.tasks i _, ⟨[], (List.append_nil _).symm⟩⟩
          | false =>
            cases htk : jsTruthyStr (getRefreshToken g.svc) with
            | true =>
              rw [doFirstResp_eq_leader ht hflag htk]
              exact ⟨List.length_set g.tasks i _, ⟨_, rfl⟩⟩
            | false =>
              rw [doFirstResp_eq_notoken ht hflag htk]
              refine ⟨?_, ⟨[], (List.append_nil _).symm⟩⟩
              rw [List.length_set, rejectAll_length]
        · rw [doFirstResp_eq_done ht hst]
          exact ⟨List.length_set g.tasks i _, ⟨[], (List.append_nil _).symm⟩⟩
      | start => rw [doFirstResp_stuck ht (by simp)]; exact hid
      | queued a => rw [doFirstResp_stuck ht (by simp)]; exact hid
      | leader a => rw [doFirstResp_stuck ht (by simp)]; exact hid
      | resolvedQ a x => rw [doFirstResp_stuck ht (by simp)]; exact hid
      | rejectedQ a e2 => rw [doFirstResp_stuck ht (by simp)]; exact hid
      | awaitRetry a => rw [doFirstResp_stuck ht (by simp)]; exact hid
      | done st2 => rw [doFirstResp_stuck ht (by simp)]; exact hid
      | failed e2 => rw [doFirstResp_stuck ht (by simp)]; exact hid
  | firstFail i =>
    show (doFirstFail g i).tasks.length = g.tasks.length ∧
      ∃ l, (doFirstFail g i).trace = g.trace ++ l
    cases ht : g.tasks[i]? with
    | none => rw [doFirstFail_none ht]; exact hid
    | some t =>
      cases t with
      | awaitFirst a =>
        rw [doFirstFail_eq ht]
        exact ⟨List.length_set g.tasks i _, ⟨[], (List.append_nil _).symm⟩⟩
      | start => rw [doFirstFail_stuck ht (by simp)]; exact hid
      | queued a => rw [doFirstFail_stuck ht (by simp)]; exact hid
      | leader a => rw [doFirstFail_stuck ht (by simp)]; exact hid
      | resolvedQ a x => rw [doFirstFail_stuck ht (by simp)]; exact hid
      | rejectedQ a e2 => rw [doFirstFail_stuck ht (by simp)]; exact hid
      | awaitRetry a => rw [doFirstFail_stuck ht (by simp)]; exact hid
      | done st => rw [doFirstFail_stuck ht (by simp)]; exact hid
      | failed e2 => rw [doFirstFail_stuck ht (by simp)]; exact hid
  | refreshResp i env =>
    show (doRefreshResp g i env).tasks.length = g.tasks.length ∧
      ∃ l, (doRefreshResp g i env).trace = g.trace ++ l
    cases ht : g.tasks[i]? with
    | none => rw [doRefreshResp_none ht]; exact hid
    | some t =>
      cases t with
      | leader a =>
        cases hres : (processRefreshResp g.svc env).1 with
        | ok newAccess =>
          rw [doRefreshResp_eq_ok ht hres]
          refine ⟨?_, ⟨_, rfl⟩⟩
          rw [List.length_set, resolveAll_length]
        | error e2 =>
          rw [doRefreshResp_eq_err ht hres]
          refine ⟨?_, ⟨[], (List.append_nil _).symm⟩⟩
          rw [List.length_set, rejectAll_length]
      | start => rw [doRefreshResp_stuck ht (by simp)]; exact hid
      | awaitFirst a => rw [doRefreshResp_stuck ht (by simp)]; exact hid
      | queued a => rw [doRefreshResp_stuck ht (by simp)]; exact hid
      | resolvedQ a x => rw [doRefreshResp_stuck ht (by simp)]; exact hid
      | rejectedQ a e2 => rw [doRefreshResp_stuck ht (by simp)]; exact hid
      | awaitRetry a => rw [doRefreshResp_stuck ht (by simp)]; exact hid
      | done st => rw [doRefreshResp_stuck ht (by simp)]; exact hid
      | failed e2 => rw [doRefreshResp_stuck ht (by simp)]; exact hid
  | resume i =>
    show (doResume g i).tasks.length = g.tasks.length ∧
      ∃ l, (doResume g i).trace = g.trace ++ l
    cases ht : g.tasks[i]? with
    | none => rw [doResume_none ht]; exact hid
    | some t =>
      cases t with
      | resolvedQ a x =>
        rw [doResume_eq_resolved ht]
        exact ⟨List.length_set g.tasks i _, ⟨_, rfl⟩⟩
      | rejectedQ a e2 =>
        rw [doResume_eq_rejected ht]
        exact ⟨List.length_set g.tasks i _, ⟨[], (List.append_nil _).symm⟩⟩
      | start => rw [doResume_stuck ht (by simp) (by simp)]; exact hid
      | awaitFirst a => rw [doResume_stuck ht (by simp) (by simp)]; exact hid
      | queued a => rw [doResume_stuck ht (by simp) (by simp)]; exact hid
      | leader a => rw [doResume_stuck ht (by simp) (by simp)]; exact hid
      | awaitRetry a => rw [doResume_stuck ht (by simp) (by simp)]; exact hid
      | done st => rw [doResume_stuck ht (by simp) (by simp)]; exact hid
      | failed e2 => rw [doResume_stuck ht (by simp) (by simp)]; exact hid
  | retryResp i st =>
    show (doRetryResp g i st).tasks.length = g.tasks.length ∧
      ∃ l, (doRetryResp g i st).trace = g.trace ++ l
    cases ht : g.tasks[i]? with
    | none => rw [doRetryResp_none ht]; exact hid
    | some t =>
      cases t with
      | awaitRetry a =>
        rw [doRetryResp_eq ht]
        exact ⟨List.length_set g.tasks i _, ⟨[], (List.append_nil _).symm⟩⟩
      | start => rw [doRetryResp_stuck ht (by simp)]; exact hid
      | awaitFirst a => rw [doRetryResp_stuck ht (by simp)]; exact hid
      | queued a => rw [doRetryResp_stuck ht (by simp)]; exact hid
      | leader a => rw [doRetryResp_stuck ht (by simp)]; exact hid
      | resolvedQ a x => rw [doRetryResp_stuck ht (by simp)]; exact hid
      | rejectedQ a e2 => rw [doRetryResp_stuck ht (by simp)]; exact hid
      | done st2 => rw [doRetryResp_stuck ht (by simp)]; exact hid
      | failed e2 => rw [doRetryResp_stuck ht (by simp)]; exact hid
  | retryFail i =>
    show (doRetryFail g i).tasks.length = g.tasks.length ∧
      ∃ l, (doRetryFail g i).trace = g.trace ++ l
    cases ht : g.tasks[i]? with
    | none => rw [doRetryFail_none ht]; exact hid
    | some t =>
      cases t with
      | awaitRetry a =>
        rw [doRetryFail_eq ht]
        exact ⟨List.length_set g.tasks i _, ⟨[], (List.append_nil _).symm⟩⟩
      | start => rw [doRetryFail_stuck ht (by simp)]; exact hid
      | awaitFirst a => rw [doRetryFail_stuck ht (by simp)]; exact hid
      | queued a => rw [doRetryFail_stuck ht (by simp)]; exact hid
      | leader a => rw [doRetryFail_stuck ht (by simp)]; exact hid
      | resolvedQ a x => rw [doRetryFail_stuck ht (by simp)]; exact hid
      | rejectedQ a e2 => rw [doRetryFail_stuck ht (by simp)]; exact hid
      | done st2 => rw [doRetryFail_stuck ht (by simp)]; exact hid
      | failed e2 => rw [doRetryFail_stuck ht (by simp)]; exact hid

theorem run_shape : ∀ (evs : List Ev) (g : GState),
    (run g evs).tasks.length = g.tasks.length ∧
    ∃ l, (run g evs).trace = g.trace ++ l := by
  intro evs
  induction evs with
  | nil => intro g; exact ⟨rfl, ⟨[], (List.append_nil _).symm⟩⟩
  | cons e es ih =>
    intro g
    have h1 := step_shape g e
    have h2 := ih (step g e)
    show (run (step g e) es).tasks.length = g.tasks.length ∧
      ∃ l, (run (step g e) es).trace = g.trace ++ l
    refine ⟨h2.1.trans h1.1, ?_⟩
    obtain ⟨l1, hl1⟩ := h1.2
    obtain ⟨l2, hl2⟩ := h2.2
    exact ⟨l1 ++ l2, by rw [hl2, hl1, List.append_assoc]⟩

theorem countRefreshCalls_append (tr1 tr2 : List NetReq) :
    countRefreshCalls (tr1 ++ tr2) =
      countRefreshCalls tr1 + countRefreshCalls tr2 := by
  simp [countRefreshCalls, List.countP_append]

/-- C1: single-flight refresh. From an idle coordinator with a truthy
refresh token, run any 401 burst of `n` concurrent callers (any
interleaving of dispatch starts and 401 first responses) until every
caller is blocked on the refresh; deliver the refresh response, which
succeeds with token `newAccess`; then run any continuation in which every
caller gets resumed. Exactly one refresh-endpoint call appears in the
whole trace, every one of the `n` callers retries its original request
exactly once, every retry carries the same `Bearer newAccess` header, and
along every prefix of the schedule at most one refresh call has been
issued (at most one exchange ever in flight). -/
theorem c1_single_flight_refresh
    (s : Svc) (n : Nat) (evs1 evs2 : List Ev) (env : RefreshHttp)
    (newAccess aL : Option String) (L : Nat)
    (htok : jsTruthyStr (getRefreshToken s) = true)
    (hb : ∀ e ∈ evs1, isBurstEv e)
    (hw : ∀ t ∈ (run (initG s n) evs1).tasks, isWaitingT t)
    (hL : (run (initG s n) evs1).tasks[L]? = some (TaskSt.leader aL))
    (hok : (processRefreshResp (run (initG s n) evs1).svc env).1 =
      Except.ok newAccess)
    (hres : ∀ i, i < n → Ev.resume i ∈ evs2) :
    countRefreshCalls
      (run (initG s n) (evs1 ++ Ev.refreshResp L env :: evs2)).trace = 1 ∧
    (∀ i, i < n → countApi2For i
      (run (initG s n) (evs1 ++ Ev.refreshResp L env :: evs2)).trace = 1) ∧
    (∀ (i k : Nat) (a : Option String),
      NetReq.apiCall i k a ∈
        (run (initG s n) (evs1 ++ Ev.refreshResp L env :: evs2)).trace →
      k = 2 → a = some (bearerOf newAccess)) ∧
    (∀ p : List Ev, List.IsPrefix p (evs1 ++ Ev.refreshResp L env :: evs2) →
      countRefreshCalls (run (initG s n) p).trace ≤ 1) := by
  have hsplit : run (initG s n) (evs1 ++ Ev.refreshResp L env :: evs2) =
      run (step (run (initG s n) evs1) (Ev.refreshResp L env)) evs2 := by
    simp [run, List.foldl_append]
  have hp1 : Phase1 s (run (initG s n) evs1) :=
    phase1_run htok evs1 (initG s n) (phase1_init s n) hb
  have hp2 : Phase2 newAccess
      (step (run (initG s n) evs1) (Ev.refreshResp L env)) :=
    phase2_of_burst hp1 hw hL hok
  have hpf : Phase2 newAccess
      (run (step (run (initG s n) evs1) (Ev.refreshResp L env)) evs2) :=
    phase2_run evs2 _ hp2
  refine ⟨by rw [hsplit]; exact hpf.rcount, ?_, ?_, ?_⟩
  · intro i hi
    rw [hsplit]
    have hlen0 : (initG s n).tasks.length = n := by
      show (List.replicate n TaskSt.start).length = n
      simp
    have hlen1 : (run (initG s n) evs1).tasks.length = n :=
      ((run_shape evs1 (initG s n)).1).trans hlen0
    have hlen2 :
        (step (run (initG s n) evs1) (Ev.refreshResp L env)).tasks.length = n :=
      ((step_shape (run (initG s n) evs1) (Ev.refreshResp L env)).1).trans hlen1
    have hlenf :
        (run (step (run (initG s n) evs1) (Ev.refreshResp L env))
          evs2).tasks.length = n :=
      ((run_shape evs2
        (step (run (initG s n) evs1) (Ev.refreshResp L env))).1).trans hlen2
    have hi2 : i <
        (run (step (run (initG s n) evs1) (Ev.refreshResp L env))
          evs2).tasks.length := by
      rw [hlenf]; exact hi
    have hsome :
        (run (step (run (initG s n) evs1) (Ev.refreshResp L env))
          evs2).tasks[i]? = some ((run (step (run (initG s n) evs1)
            (Ev.refreshResp L env)) evs2).tasks[i]) :=
      (List.getElem?_eq_some_getElem_iff _ _ hi2).mpr trivial
    obtain ⟨l1, l2, hebd⟩ := List.append_of_mem (hres i hi)
    have hrun2 : run (step (run (initG s n) evs1) (Ev.refreshResp L env)) evs2 =
        run (step (run (step (run (initG s n) evs1) (Ev.refreshResp L env)) l1)
          (Ev.resume i)) l2 := by
      rw [hebd]
      simp [run, List.foldl_append]
    have hpl1 : Phase2 newAccess
        (run (step (run (initG s n) evs1) (Ev.refreshResp L env)) l1) :=
      phase2_run l1 _ hp2
    have hnr1 : NotRes i
        (step (run (step (run (initG s n) evs1) (Ev.refreshResp L env)) l1)
          (Ev.resume i)) :=
      resume_notRes hpl1 i
    have hpstep : Phase2 newAccess
        (step (run (step (run (initG s n) evs1) (Ev.refreshResp L env)) l1)
          (Ev.resume i)) :=
      phase2_step hpl1 (Ev.resume i)
    have hnrf : NotRes i
        (run (step (run (initG s n) evs1) (Ev.refreshResp L env)) evs2) := by
      rw [hrun2]
      exact phase2_notRes_run l2 _ hpstep hnr1
    have hx := hpf.states i _ hsome
    cases ht : (run (step (run (initG s n) evs1) (Ev.refreshResp L env))
        evs2).tasks[i] with
    | resolvedQ b x =>
      rw [ht] at hsome
      exact absurd hsome (hnrf b x)
    | awaitRetry a => rw [ht] at hx; exact hx.2
    | done st => rw [ht] at hx; exact hx
    | failed e2 => rw [ht] at hx; exact hx
    | start => rw [ht] at hx; exact hx.elim
    | awaitFirst a => rw [ht] at hx; exact hx.elim
    | queued a => rw [ht] at hx; exact hx.elim
    | leader a => rw [ht] at hx; exact hx.elim
    | rejectedQ a e2 => rw [ht] at hx; exact hx.elim
  · rw [hsplit]
    exact hpf.auth2
  · intro p hpre
    obtain ⟨q, hq⟩ := hpre
    have htot : countRefreshCalls
        (run (initG s n) (evs1 ++ Ev.refreshResp L env :: evs2)).trace = 1 := by
      rw [hsplit]
      exact hpf.rcount
    rw [← hq] at htot
    have hfull : run (initG s n) (p ++ q) = run (run (initG s n) p) q := by
      simp [run, List.foldl_append]
    obtain ⟨l, hl⟩ := (run_shape q (run (initG s n) p)).2
    rw [hfull, hl, countRefreshCalls_append] at htot
    omega

/-- Concrete two-caller burst schedule: both callers dispatch and hit 401. -/
def evsBurst2 : List Ev :=
  [Ev.start 0, Ev.firstResp 0 401, Ev.start 1, Ev.firstResp 1 401]

/-- Concrete drain schedule: both callers resume and complete their retries. -/
def evsDrain2 : List Ev :=
  [Ev.resume 0, Ev.resume 1, Ev.retryResp 0 200, Ev.retryResp 1 200]

/-- C1 witness: in the concrete two-caller burst with a successful refresh
returning access token `A2`, exactly one refresh call is made, both callers
retry exactly once with `Bearer A2`, and no prefix of the schedule ever has
more than one refresh call. -/
theorem c1_single_flight_refresh_witness :
    countRefreshCalls (run (initG svcTok 2)
      (evsBurst2 ++ Ev.refreshResp 0 envOk :: evsDrain2)).trace = 1 ∧
    (∀ i, i < 2 → countApi2For i (run (initG svcTok 2)
      (evsBurst2 ++ Ev.refreshResp 0 envOk :: evsDrain2)).trace = 1) ∧
    (∀ (i k : Nat) (a : Option String),
      NetReq.apiCall i k a ∈ (run (initG svcTok 2)
        (evsBurst2 ++ Ev.refreshResp 0 envOk :: evsDrain2)).trace →
      k = 2 → a = some (bearerOf (some "A2"))) ∧
    (∀ p : List Ev, List.IsPrefix p (evsBurst2 ++ Ev.refreshResp 0 envOk ::
        evsDrain2) →
      countRefreshCalls (run (initG svcTok 2) p).trace ≤ 1) := by
  refine c1_single_flight_refresh svcTok 2 evsBurst2 evsDrain2 envOk
    (some "A2") (some (bearerOf (some "A1"))) 0 (by decide) ?_ ?_ (by decide)
    rfl ?_
  · intro e he
    simp only [evsBurst2, List.mem_cons, List.not_mem_nil, or_false] at he
    rcases he with rfl | rfl | rfl | rfl
    · exact Or.inl ⟨0, rfl⟩
    · exact Or.inr ⟨0, rfl⟩
    · exact Or.inl ⟨1, rfl⟩
    · exact Or.inr ⟨1, rfl⟩
  · intro t ht
    have htasks : (run (initG svcTok 2) evsBurst2).tasks =
        [TaskSt.leader (some (bearerOf (some "A1"))),
         TaskSt.queued (some (bearerOf (some "A1")))] := by decide
    rw [htasks] at ht
    simp only [List.mem_cons, List.not_mem_nil, or_false] at ht
    rcases ht with rfl | rfl
    · exact Or.inr ⟨_, rfl⟩
    · exact Or.inl ⟨_, rfl⟩
  · intro i hi
    match i, hi with
    | 0, _ => exact List.mem_cons_self _ _
    | 1, _ => exact List.mem_cons_of_mem _ (List.mem_cons_self _ _)
